import Mathlib

/-!
# AstroSense-RT: ring buffer, moving average and aggregator loop

Shallow embedding of `include/circular_buffer.inl`, `src/data_processor.cpp`,
`src/sensor_simulator.cpp`, `src/ipc_manager.cpp` and the lifecycle calls of
`src/main.cpp`, followed by the verification of the ring-buffer contract
against a list model, of the aggregator loop, and of the message channel.

Conventions of the embedding:

* `size_t` and `uint64_t` values are natural numbers; every `+` and `-` of the
  source is taken modulo `2 ^ 64` (`szAdd`, `szSub`), every `%` of the source
  is `%`.
* `std::vector<T> m_buffer` is a `List α`; `m_buffer[i] = x` is `List.set`,
  reading `m_buffer[i]` is `List.getD` (the default value is never observed
  in a state built by the constructor and the member functions).
* a member function that mutates the object returns its result paired with
  the new object; the mutex is not modelled (every call is atomic).
* `double` is `ℚ`: the moving average is stated in exact arithmetic.
* the POSIX message queue is external to the repository; it is a FIFO of
  `maxmsg` slots with non-blocking send and receive, and a log of the calls
  made to it.
-/

set_option linter.unusedSectionVars false

namespace sensor

/-! ## Machine arithmetic -/

/-- Modulus of `size_t` and `uint64_t` arithmetic. -/
def SIZE_MOD : Nat := 2 ^ 64

/-- Largest element count a `std::vector` can be constructed with
(`PTRDIFF_MAX`); the constructor of the buffer allocates such a vector. -/
def VECTOR_MAX_SIZE : Nat := 2 ^ 63 - 1

/-- Unsigned addition `a + b` on `size_t`. -/
def szAdd (a b : Nat) : Nat := (a + b) % SIZE_MOD

/-- Unsigned subtraction `a - b` on `size_t` (wraps below zero). -/
def szSub (a b : Nat) : Nat := (a + SIZE_MOD - b) % SIZE_MOD

/-! ## `CircularBuffer<T>` (circular_buffer.hpp / circular_buffer.inl) -/

/-- Data members of `CircularBuffer<T>`. -/
structure CircularBuffer (α : Type) where
  m_size : Nat
  m_buffer : List α
  m_head : Nat
  m_tail : Nat
  m_full : Bool
  deriving DecidableEq

namespace CircularBuffer

variable {α : Type} [Inhabited α]

/-- Constructor `CircularBuffer(size_t size)`: `size` value-initialised slots,
`m_head = m_tail = 0`, `m_full = false`. -/
def new (size : Nat) : CircularBuffer α :=
  { m_size := size
    m_buffer := List.replicate size default
    m_head := 0
    m_tail := 0
    m_full := false }

/-- Member `empty()`: `!m_full && (m_head == m_tail)`. -/
def empty (b : CircularBuffer α) : Bool :=
  !b.m_full && (b.m_head == b.m_tail)

/-- Member `full()`: the flag `m_full`. -/
def full (b : CircularBuffer α) : Bool :=
  b.m_full

/-- Member `size()`: `m_size` when full, otherwise `(m_head - m_tail + m_size) % m_size`
in `size_t` arithmetic. -/
def size (b : CircularBuffer α) : Nat :=
  if b.m_full then b.m_size
  else szAdd (szSub b.m_head b.m_tail) b.m_size % b.m_size

/-- Member `capacity()`: `m_size`. -/
def capacity (b : CircularBuffer α) : Nat :=
  b.m_size

/-- Member `push(item)`: store at `m_head`, advance `m_head`; when full advance
`m_tail` as well, otherwise set `m_full = (m_head == m_tail)`; return `true`. -/
def push (b : CircularBuffer α) (item : α) : Bool × CircularBuffer α :=
  let buffer := b.m_buffer.set b.m_head item
  let head := szAdd b.m_head 1 % b.m_size
  if b.m_full then
    (true, { b with m_buffer := buffer, m_head := head,
                    m_tail := szAdd b.m_tail 1 % b.m_size })
  else
    (true, { b with m_buffer := buffer, m_head := head,
                    m_full := head == b.m_tail })

/-- Member `pop()`: `nullopt` on an empty buffer; otherwise the item at `m_tail`,
with `m_tail` advanced and `m_full` cleared. -/
def pop (b : CircularBuffer α) : Option α × CircularBuffer α :=
  if b.empty then (none, b)
  else
    (some (b.m_buffer.getD b.m_tail default),
     { b with m_tail := szAdd b.m_tail 1 % b.m_size, m_full := false })

/-- The copy loop of `getWindow`: `n` iterations remaining, reading slot
`current` and advancing it modulo `m_size`. -/
def copyLoop (b : CircularBuffer α) : Nat → Nat → List α → List α
  | 0, _, window => window
  | n + 1, current, window =>
      copyLoop b n (szAdd current 1 % b.m_size)
        (window ++ [b.m_buffer.getD current default])

/-- Member `getWindow(window_size)`: empty when the buffer is empty or
`window_size == 0`; otherwise `count = min(window_size, size())` items starting
at slot `(m_tail + size() - count) % m_size`. -/
def getWindow (b : CircularBuffer α) (window_size : Nat) : List α :=
  if b.empty || window_size == 0 then []
  else
    let count := min window_size b.size
    let current := szSub (szAdd b.m_tail b.size) count % b.m_size
    copyLoop b count current []

end CircularBuffer

/-! ## Call sequences on a buffer -/

/-- One call on a `CircularBuffer<T>`. -/
inductive Op (α : Type) where
  | push (item : α)
  | pop
  | getWindow (window_size : Nat)
  deriving DecidableEq

/-- What a call returns to its caller. -/
inductive Ret (α : Type) where
  | pushed (ok : Bool)
  | popped (item : Option α)
  | window (items : List α)
  deriving DecidableEq

namespace CircularBuffer

variable {α : Type} [Inhabited α]

/-- Result and successor state of one call. `getWindow` is a `const` member:
the object is handed back as it was. -/
def call (b : CircularBuffer α) : Op α → Ret α × CircularBuffer α
  | .push item => (Ret.pushed (b.push item).1, (b.push item).2)
  | .pop => (Ret.popped (b.pop).1, (b.pop).2)
  | .getWindow k => (Ret.window (b.getWindow k), b)

/-- State after a sequence of calls. -/
def run (b : CircularBuffer α) (ops : List (Op α)) : CircularBuffer α :=
  ops.foldl (fun s op => (s.call op).2) b

/-- Results of `n` successive `pop()` calls in call order, and the final state. -/
def popN (b : CircularBuffer α) : Nat → List (Option α) × CircularBuffer α
  | 0 => ([], b)
  | n + 1 => ((b.pop).1 :: (popN (b.pop).2 n).1, (popN (b.pop).2 n).2)

/-- What the caller can observe after a call: `size()`, `empty()`, `full()`. -/
def queries (b : CircularBuffer α) : Nat × Bool × Bool :=
  (b.size, b.empty, b.full)

/-- Every call's result together with the queries made right after it. -/
def trace (b : CircularBuffer α) : List (Op α) → List (Ret α × Nat × Bool × Bool)
  | [] => []
  | op :: ops => ((b.call op).1, (b.call op).2.queries) :: trace (b.call op).2 ops

end CircularBuffer


/-! ## List model of the ring buffer

The model follows the wording of the contract: the list holds the surviving
items, oldest first. -/

namespace Model

variable {α : Type}

/-- Push appends the item, first dropping the front item when the list already
holds `C` items. -/
def push (C : Nat) (l : List α) (item : α) : List α :=
  if l.length = C then l.drop 1 ++ [item] else l ++ [item]

/-- Pop removes and returns the front item; nothing when the list is empty. -/
def pop : List α → Option α × List α
  | [] => (none, [])
  | x :: xs => (some x, xs)

/-- The `min k (length l)` most recent items, oldest of the selected first. -/
def window (l : List α) (k : Nat) : List α :=
  l.drop (l.length - min k l.length)

/-- Result and successor list of one call; a push always reports success. -/
def call (C : Nat) (l : List α) : Op α → Ret α × List α
  | .push item => (Ret.pushed true, push C l item)
  | .pop => (Ret.popped (pop l).1, (pop l).2)
  | .getWindow k => (Ret.window (window l k), l)

/-- List after a sequence of calls. -/
def run (C : Nat) (l : List α) (ops : List (Op α)) : List α :=
  ops.foldl (fun s op => (call C s op).2) l

/-- The model's answers to `size()`, `empty()`, `full()`. -/
def queries (C : Nat) (l : List α) : Nat × Bool × Bool :=
  (l.length, l.isEmpty, l.length == C)

/-- Every call's result together with the queries made right after it. -/
def trace (C : Nat) (l : List α) : List (Op α) → List (Ret α × Nat × Bool × Bool)
  | [] => []
  | op :: ops => ((call C l op).1, queries C (call C l op).2) :: trace C (call C l op).2 ops

end Model

/-! ## Representation invariant and abstraction function -/

namespace CircularBuffer

variable {α : Type} [Inhabited α]

/-- Representation invariant of a buffer of capacity `C`. -/
structure WF (C : Nat) (b : CircularBuffer α) : Prop where
  cap_pos : 1 ≤ C
  cap_max : C ≤ VECTOR_MAX_SIZE
  size_eq : b.m_size = C
  buf_len : b.m_buffer.length = C
  head_lt : b.m_head < C
  tail_lt : b.m_tail < C
  full_eq : b.m_full = true → b.m_head = b.m_tail

/-- The `n` slots of `buffer` read from slot `start` onwards, wrapping at `C`. -/
def slice (buffer : List α) (C start n : Nat) : List α :=
  (List.range n).map (fun i => buffer.getD ((start + i) % C) default)

/-- Abstraction function: the stored items, oldest first. -/
def toList (b : CircularBuffer α) : List α :=
  slice b.m_buffer b.m_size b.m_tail b.size

end CircularBuffer

/-! ## Samples, messages and configuration (common.hpp) -/

/-- Number of sensor channels. -/
abbrev NUM_SENSORS : Nat := 6

/-- Capacity of the simulator's reservoir buffer. -/
def BUFFER_SIZE : Nat := 100

/-- Largest value of a C++ `int`. -/
def INT_MAX : Int := 2147483647

/-- Conversion of an `int` to `size_t`. -/
def toSizeT (i : Int) : Nat := (i % (SIZE_MOD : Int)).toNat

/-- One raw reading: `values` per channel and a `timestamp`. -/
structure SensorData where
  values : Fin NUM_SENSORS → ℚ
  timestamp : Nat

/-- A value-initialised `SensorData`. -/
instance : Inhabited SensorData := ⟨{ values := fun _ => 0, timestamp := 0 }⟩

/-- A reading whose every channel carries the value `q`. -/
def constantSample (q : ℚ) (t : Nat) : SensorData :=
  { values := fun _ => q, timestamp := t }

/-- One processed message: `msg_id`, per-channel `avg_values`, `timestamp`. -/
structure MQMessage where
  msg_id : Nat
  avg_values : Fin NUM_SENSORS → ℚ
  timestamp : Nat

/-- The two tunables of the system. -/
structure Config where
  sampling_rate_ms : Int
  moving_avg_window : Int

/-! ## `SensorSimulator` (sensor_simulator.cpp) -/

/-- The part of `SensorSimulator` the aggregator sees: the reservoir `m_buffer`. -/
structure SensorSimulator where
  m_buffer : CircularBuffer SensorData

namespace SensorSimulator

/-- Member `getLatestData()`: `m_buffer.pop()`. -/
def getLatestData (sim : SensorSimulator) : Option SensorData × SensorSimulator :=
  ((sim.m_buffer.pop).1, { sim with m_buffer := (sim.m_buffer.pop).2 })

/-- Body of one `simulationLoop` iteration for the generated reading `data`:
`m_buffer.push(data)`. -/
def simulationStep (sim : SensorSimulator) (data : SensorData) : SensorSimulator :=
  { sim with m_buffer := (sim.m_buffer.push data).2 }

end SensorSimulator

/-! ## `DataProcessor` (data_processor.cpp) -/

/-- State of a running `DataProcessor`: its members, the local `window_buffer`
of `processingLoop`, and the log `sent` of the messages handed to
`m_ipc_manager.sendMessage`, oldest first. -/
structure DataProcessor where
  m_config : Config
  m_simulator : SensorSimulator
  m_msg_counter : Nat
  window_buffer : CircularBuffer SensorData
  sent : List MQMessage

namespace DataProcessor

/-- Member `computeMovingAverage(window)`: all zeros for an empty window, otherwise
per sensor the running `sum` over the window divided by `window.size()`. -/
def computeMovingAverage (window : List SensorData) : Fin NUM_SENSORS → ℚ :=
  if window.isEmpty then fun _ => 0
  else fun sensor =>
    window.foldl (fun sum data => sum + data.values sensor) 0 / (window.length : ℚ)

/-- State on entry to `processingLoop`: the constructor set `m_msg_counter = 0`,
and the loop constructs `window_buffer(m_config.moving_avg_window)`. -/
def start (config : Config) (simulator : SensorSimulator) : DataProcessor :=
  { m_config := config
    m_simulator := simulator
    m_msg_counter := 0
    window_buffer := CircularBuffer.new (toSizeT config.moving_avg_window)
    sent := [] }

/-- Body of one `processingLoop` iteration (the sleep is not modelled). -/
def processingStep (p : DataProcessor) : DataProcessor :=
  match p.m_simulator.getLatestData with
  | (none, simulator) => { p with m_simulator := simulator }
  | (some data, simulator) =>
    let window_buffer := (p.window_buffer.push data).2
    let window := window_buffer.getWindow (toSizeT p.m_config.moving_avg_window)
    if !window.isEmpty then
      let avg_values := computeMovingAverage window
      let msg : MQMessage :=
        { msg_id := p.m_msg_counter, avg_values := avg_values, timestamp := data.timestamp }
      { p with m_simulator := simulator, window_buffer := window_buffer,
               m_msg_counter := (p.m_msg_counter + 1) % SIZE_MOD,
               sent := p.sent ++ [msg] }
    else
      { p with m_simulator := simulator, window_buffer := window_buffer }

end DataProcessor

/-- One step of the sequential schedule of the two loops: the producer pushes a
reading, or the aggregator runs one iteration. -/
inductive Tick where
  | produce (data : SensorData)
  | process

namespace DataProcessor

/-- Effect of one tick on the processor and the simulator it refers to. -/
def tick (p : DataProcessor) : Tick → DataProcessor
  | .produce data => { p with m_simulator := p.m_simulator.simulationStep data }
  | .process => p.processingStep

/-- State after a sequence of ticks. -/
def runTicks (p : DataProcessor) (ticks : List Tick) : DataProcessor :=
  ticks.foldl tick p

/-- The end-to-end schedule: each reading is pushed and then aggregated. -/
def pushThenAggregate (samples : List SensorData) : List Tick :=
  samples.flatMap (fun data => [Tick.produce data, Tick.process])

end DataProcessor

/-- The aggregator has drained the reservoir: both buffers are well formed
(capacities `R` and `W`), the reservoir holds nothing, the window buffer holds
`wl`, the counter is `c` and the messages handed over so far are `sent`. -/
structure Drained (R W : Nat) (p : DataProcessor) (wl : List SensorData) (c : Nat)
    (sent : List MQMessage) : Prop where
  wfR : CircularBuffer.WF R p.m_simulator.m_buffer
  wfW : CircularBuffer.WF W p.window_buffer
  cfg : toSizeT p.m_config.moving_avg_window = W
  reservoir : p.m_simulator.m_buffer.toList = []
  window : p.window_buffer.toList = wl
  counter : p.m_msg_counter = c
  log : p.sent = sent

/-- The messages the aggregator hands over when each of `samples` is pushed and
then aggregated, starting from window contents `wl` and counter `c`: one message
per sample, averaging the window list after the sample has entered it. -/
def expectedLog (W : Nat) : List SensorData → Nat → List SensorData → List MQMessage
  | _, _, [] => []
  | wl, c, d :: ds =>
    { msg_id := c, avg_values := DataProcessor.computeMovingAverage (Model.push W wl d),
      timestamp := d.timestamp } :: expectedLog W (Model.push W wl d) (c + 1) ds

/-- Bookkeeping invariant of the aggregator: the window buffer is well formed
with the configured capacity `W`, the counter equals the number of messages
handed over, their ids are `0, 1, 2, ...`, and at most `n` were handed over. -/
structure Counting (W : Nat) (p : DataProcessor) (n : Nat) : Prop where
  wfW : CircularBuffer.WF W p.window_buffer
  cfg : toSizeT p.m_config.moving_avg_window = W
  counter : p.m_msg_counter = p.sent.length
  ids : p.sent.map MQMessage.msg_id = List.range p.sent.length
  bound : p.sent.length ≤ n

/-! ## Message-queue transport and `IPCManager` (ipc_manager.cpp) -/

/-- Error codes for system operations (common.hpp). -/
inductive ErrorCode where
  | SUCCESS
  | QUEUE_OPEN_ERROR
  | QUEUE_SEND_ERROR
  | QUEUE_RECEIVE_ERROR
  | BUFFER_FULL
  | BUFFER_EMPTY
  deriving DecidableEq

/-- Value of `IPCManager::MAX_MESSAGES`. -/
def MAX_MESSAGES : Nat := 10

/-- The `errno` values the transport reports. -/
inductive Errno where
  | EAGAIN
  | EBADF
  | ENOENT
  deriving DecidableEq

/-- A message-queue descriptor `mqd_t`: `MQ_INVALID`, or a handle opened
write-only or read-only. -/
inductive mqd_t where
  | MQ_INVALID
  | wronly
  | rdonly
  deriving DecidableEq

/-- The functions of the transport. -/
inductive MQCall where
  | mq_open
  | mq_send
  | mq_receive
  | mq_close
  | mq_unlink
  deriving DecidableEq

/-- Modelled from the spec: the named channel behind the POSIX message-queue
calls, which are external to the repository. The channel is a FIFO queue of
`maxmsg` slots (`slots`, oldest first) that exists in the system namespace when
`created`; `calls` records every transport function invoked, oldest first. -/
structure Channel where
  created : Bool
  maxmsg : Nat
  slots : List MQMessage
  calls : List MQCall

namespace Channel

/-- Modelled from the spec: `mq_open`. Attaches to the named channel when it
exists; with `O_CREAT` creates it empty with `attr_maxmsg` slots; otherwise
fails and returns `MQ_INVALID`. -/
def mq_open (ch : Channel) (wronly creat : Bool) (attr_maxmsg : Nat) : mqd_t × Channel :=
  let handle := if wronly then mqd_t.wronly else mqd_t.rdonly
  if ch.created then
    (handle, { ch with calls := ch.calls ++ [MQCall.mq_open] })
  else if creat then
    (handle, { created := true, maxmsg := attr_maxmsg, slots := [],
               calls := ch.calls ++ [MQCall.mq_open] })
  else
    (mqd_t.MQ_INVALID, { ch with calls := ch.calls ++ [MQCall.mq_open] })

/-- Modelled from the spec: non-blocking `mq_send`. Enqueues at the back; fails
with `EAGAIN` when all `maxmsg` slots are taken, with `EBADF` on a descriptor
not open for writing. -/
def mq_send (ch : Channel) (queue : mqd_t) (msg : MQMessage) : Except Errno Unit × Channel :=
  match queue with
  | mqd_t.wronly =>
    if ch.slots.length < ch.maxmsg then
      (Except.ok (), { ch with slots := ch.slots ++ [msg], calls := ch.calls ++ [MQCall.mq_send] })
    else
      (Except.error Errno.EAGAIN, { ch with calls := ch.calls ++ [MQCall.mq_send] })
  | _ => (Except.error Errno.EBADF, { ch with calls := ch.calls ++ [MQCall.mq_send] })

/-- Modelled from the spec: non-blocking `mq_receive`. Dequeues the oldest
message; fails with `EAGAIN` when none is queued, with `EBADF` on a descriptor
not open for reading. -/
def mq_receive (ch : Channel) (queue : mqd_t) : Except Errno MQMessage × Channel :=
  match queue with
  | mqd_t.rdonly =>
    match ch.slots with
    | [] => (Except.error Errno.EAGAIN, { ch with calls := ch.calls ++ [MQCall.mq_receive] })
    | msg :: rest =>
      (Except.ok msg, { ch with slots := rest, calls := ch.calls ++ [MQCall.mq_receive] })
  | _ => (Except.error Errno.EBADF, { ch with calls := ch.calls ++ [MQCall.mq_receive] })

/-- Modelled from the spec: `mq_close`. Releases the local handle. -/
def mq_close (ch : Channel) (_queue : mqd_t) : Channel :=
  { ch with calls := ch.calls ++ [MQCall.mq_close] }

/-- Modelled from the spec: `mq_unlink`. Removes the name from the system
namespace. -/
def mq_unlink (ch : Channel) : Channel :=
  { ch with created := false, calls := ch.calls ++ [MQCall.mq_unlink] }

end Channel

/-- Data members of `IPCManager`. -/
structure IPCManager where
  m_queue : mqd_t
  m_is_initialized : Bool
  m_is_sender : Bool
  deriving DecidableEq

namespace IPCManager

/-- Constructor `IPCManager()`. -/
def new : IPCManager :=
  { m_queue := mqd_t.MQ_INVALID, m_is_initialized := false, m_is_sender := false }

/-- Member `IPCManager::initialize(is_sender)`: record the role, open the queue
(the sender with `O_WRONLY | O_CREAT | O_NONBLOCK` and `mq_maxmsg = MAX_MESSAGES`,
the receiver with `O_RDONLY | O_NONBLOCK`), fail with `QUEUE_OPEN_ERROR` on
`MQ_INVALID`, otherwise set `m_is_initialized`. -/
def init (m : IPCManager) (ch : Channel) (is_sender : Bool) :
    ErrorCode × IPCManager × Channel :=
  let opened :=
    if is_sender then ch.mq_open true true MAX_MESSAGES
    else ch.mq_open false false MAX_MESSAGES
  if opened.1 = mqd_t.MQ_INVALID then
    (ErrorCode.QUEUE_OPEN_ERROR,
     { m with m_is_sender := is_sender, m_queue := opened.1 }, opened.2)
  else
    (ErrorCode.SUCCESS,
     { m_is_sender := is_sender, m_queue := opened.1, m_is_initialized := true }, opened.2)

/-- Member `sendMessage(msg)`: `QUEUE_SEND_ERROR` unless initialized as sender;
otherwise `mq_send`, mapping `EAGAIN` to `BUFFER_FULL`, any other failure to
`QUEUE_SEND_ERROR`, and success to `SUCCESS`. -/
def sendMessage (m : IPCManager) (ch : Channel) (msg : MQMessage) : ErrorCode × Channel :=
  if !m.m_is_initialized || !m.m_is_sender then (ErrorCode.QUEUE_SEND_ERROR, ch)
  else
    match ch.mq_send m.m_queue msg with
    | (Except.error errno, ch1) =>
      if errno = Errno.EAGAIN then (ErrorCode.BUFFER_FULL, ch1)
      else (ErrorCode.QUEUE_SEND_ERROR, ch1)
    | (Except.ok _, ch1) => (ErrorCode.SUCCESS, ch1)

/-- Member `receiveMessage()`: `nullopt` unless initialized as receiver;
otherwise `mq_receive`, returning `nullopt` on any failure and the message on
success. -/
def receiveMessage (m : IPCManager) (ch : Channel) : Option MQMessage × Channel :=
  if !m.m_is_initialized || m.m_is_sender then (none, ch)
  else
    match ch.mq_receive m.m_queue with
    | (Except.error errno, ch1) =>
      if errno = Errno.EAGAIN then (none, ch1) else (none, ch1)
    | (Except.ok msg, ch1) => (some msg, ch1)

/-- Member `cleanup()`: when initialized, close the handle, unlink the name if
sender, and clear `m_is_initialized`. -/
def cleanup (m : IPCManager) (ch : Channel) : IPCManager × Channel :=
  if m.m_is_initialized then
    let ch1 := ch.mq_close m.m_queue
    let ch2 := if m.m_is_sender then ch1.mq_unlink else ch1
    ({ m with m_is_initialized := false }, ch2)
  else (m, ch)

/-- Results of `sendMessage` on each of `msgs` in turn, and the final channel. -/
def sendAll (m : IPCManager) (ch : Channel) : List MQMessage → List ErrorCode × Channel
  | [] => ([], ch)
  | msg :: msgs =>
    ((m.sendMessage ch msg).1 :: (sendAll m (m.sendMessage ch msg).2 msgs).1,
     (sendAll m (m.sendMessage ch msg).2 msgs).2)

/-- Results of `n` successive `receiveMessage` calls, and the final channel. -/
def receiveN (m : IPCManager) (ch : Channel) : Nat → List (Option MQMessage) × Channel
  | 0 => ([], ch)
  | n + 1 =>
    ((m.receiveMessage ch).1 :: (receiveN m (m.receiveMessage ch).2 n).1,
     (receiveN m (m.receiveMessage ch).2 n).2)

end IPCManager

/-- Outcomes of the backpressure scenario on a channel: a sender is
initialized, sends `msgs` and then `extra` with no receive in between, after
which a receiver is initialized and polls `msgs.length` times and once more. -/
structure Backpressure where
  senderInit : ErrorCode
  sends : List ErrorCode
  lastSend : ErrorCode
  queuedBeforeLast : List MQMessage
  queuedAfterLast : List MQMessage
  receiverInit : ErrorCode
  received : List (Option MQMessage)
  onceMore : Option MQMessage

/-- The backpressure scenario run on the channel `ch`. -/
def backpressure (ch : Channel) (msgs : List MQMessage) (extra : MQMessage) : Backpressure :=
  let s := IPCManager.new.init ch true
  let a := s.2.1.sendAll s.2.2 msgs
  let l := s.2.1.sendMessage a.2 extra
  let r := IPCManager.new.init l.2 false
  let p := r.2.1.receiveN r.2.2 msgs.length
  let o := r.2.1.receiveMessage p.2
  { senderInit := s.1
    sends := a.1
    lastSend := l.1
    queuedBeforeLast := a.2.slots
    queuedAfterLast := l.2.slots
    receiverInit := r.1
    received := p.1
    onceMore := o.1 }

/-- A message with the given id, all averages zero. -/
def sampleMessage (i : Nat) : MQMessage :=
  { msg_id := i, avg_values := fun _ => 0, timestamp := i }

/-! ## Lifecycle of the stages in `main` (main.cpp) -/

/-- The three stage objects of `main`. -/
inductive Stage where
  | SensorSimulator
  | DataProcessor
  | OutputHandler
  deriving DecidableEq

/-- A `start()` or `stop()` call that took effect on a stage. -/
inductive Lifecycle where
  | start (s : Stage)
  | stop (s : Stage)
  deriving DecidableEq

/-- The `m_running` flags of the three stage objects of `main`, and the log of
the `start()` and `stop()` calls that took effect, oldest first. -/
structure Stages where
  simulator : Bool
  processor : Bool
  output : Bool
  log : List Lifecycle
  deriving DecidableEq

namespace Stages

/-- The stages right after their constructors: none is running. -/
def constructed : Stages :=
  { simulator := false, processor := false, output := false, log := [] }

/-- The flag `m_running` of a stage. -/
def running (st : Stages) : Stage → Bool
  | Stage.SensorSimulator => st.simulator
  | Stage.DataProcessor => st.processor
  | Stage.OutputHandler => st.output

/-- Assignment to the flag `m_running` of a stage. -/
def setRunning (st : Stages) (s : Stage) (v : Bool) : Stages :=
  match s with
  | Stage.SensorSimulator => { st with simulator := v }
  | Stage.DataProcessor => { st with processor := v }
  | Stage.OutputHandler => { st with output := v }

/-- Member `start()` of a stage: when not running, set `m_running` and launch
the thread. -/
def start (st : Stages) (s : Stage) : Stages :=
  if !st.running s then
    { st.setRunning s true with log := st.log ++ [Lifecycle.start s] }
  else st

/-- Member `stop()` of a stage: when running, clear `m_running` and join the
thread. -/
def stop (st : Stages) (s : Stage) : Stages :=
  if st.running s then
    { st.setRunning s false with log := st.log ++ [Lifecycle.stop s] }
  else st

/-- The stages in the order their `stop()` took effect. -/
def stopOrder (st : Stages) : List Stage :=
  st.log.filterMap (fun e => match e with
    | Lifecycle.stop s => some s
    | Lifecycle.start _ => none)

/-- The stages in the order their `start()` took effect. -/
def startOrder (st : Stages) : List Stage :=
  st.log.filterMap (fun e => match e with
    | Lifecycle.start s => some s
    | Lifecycle.stop _ => none)

end Stages

/-- The lifecycle calls of `main` on a clean exit: the three `start()` calls,
then (once the wait loop has seen `g_running == false`) the shutdown sequence
`output.stop(); processor.stop(); simulator.stop();`, then the destructors of
`output`, `processor` and `simulator`, each of which calls `stop()`. -/
def main : Stages :=
  let st := Stages.constructed
  let st := st.start Stage.SensorSimulator
  let st := st.start Stage.DataProcessor
  let st := st.start Stage.OutputHandler
  let st := st.stop Stage.OutputHandler
  let st := st.stop Stage.DataProcessor
  let st := st.stop Stage.SensorSimulator
  let st := st.stop Stage.OutputHandler
  let st := st.stop Stage.DataProcessor
  let st := st.stop Stage.SensorSimulator
  st

/-! ## Slots of `m_buffer` touched by a call -/

namespace CircularBuffer

variable {α : Type} [Inhabited α]

/-- The values of `current` at which the copy loop of `getWindow` reads
`m_buffer`, in order: `n` iterations remaining, starting at `current`. -/
def copyLoopSlots (b : CircularBuffer α) : Nat → Nat → List Nat
  | 0, _ => []
  | n + 1, current => current :: copyLoopSlots b n (szAdd current 1 % b.m_size)

/-- The indices at which a call reads or writes `m_buffer`: `push` writes at
`m_head`, `pop` reads at `m_tail` unless empty, `getWindow` reads at every
`current` of its copy loop. -/
def touched (b : CircularBuffer α) : Op α → List Nat
  | .push _ => [b.m_head]
  | .pop => if b.empty then [] else [b.m_tail]
  | .getWindow window_size =>
    if b.empty || window_size == 0 then []
    else
      copyLoopSlots b (min window_size b.size)
        (szSub (szAdd b.m_tail b.size) (min window_size b.size) % b.m_size)

/-- Index bounds of a buffer of capacity `C`: `m_size` and the length of
`m_buffer` are `C`, and `m_head` and `m_tail` are below `C`. -/
structure InBounds (C : Nat) (b : CircularBuffer α) : Prop where
  size_eq : b.m_size = C
  buf_len : b.m_buffer.length = C
  head_lt : b.m_head < C
  tail_lt : b.m_tail < C

end CircularBuffer

/-! ## Arithmetic lemmas -/

theorem mod_wrap {a C : Nat} (h : a < C + C) :
    a % C = if a < C then a else a - C := by
  split
  · next h1 => exact Nat.mod_eq_of_lt h1
  · next h1 =>
    rw [Nat.mod_eq_sub_mod (by omega)]
    exact Nat.mod_eq_of_lt (by omega)

theorem szAdd_small {a b : Nat} (h : a + b < 2 ^ 64) : szAdd a b = a + b := by
  unfold szAdd SIZE_MOD
  exact Nat.mod_eq_of_lt h

theorem szSub_small {a b : Nat} (h : b ≤ a) (ha : a < 2 ^ 64) : szSub a b = a - b := by
  unfold szSub SIZE_MOD
  omega

theorem szAdd_szSub {h t C : Nat} (hh : h < C) (ht : t < C) (hC : C ≤ VECTOR_MAX_SIZE) :
    szAdd (szSub h t) C = h + C - t := by
  unfold szAdd szSub SIZE_MOD
  unfold VECTOR_MAX_SIZE at hC
  omega

namespace CircularBuffer

variable {α : Type} [Inhabited α]

theorem WF_new {C : Nat} (h1 : 1 ≤ C) (h2 : C ≤ VECTOR_MAX_SIZE) :
    WF C (new C : CircularBuffer α) :=
  { cap_pos := h1, cap_max := h2, size_eq := rfl, buf_len := by simp [new],
    head_lt := h1, tail_lt := h1, full_eq := by simp [new] }

theorem size_val {C : Nat} {b : CircularBuffer α} (w : WF C b) :
    b.size = if b.m_full then C
      else if b.m_tail ≤ b.m_head then b.m_head - b.m_tail
      else b.m_head + C - b.m_tail := by
  have h1 := w.head_lt
  have h2 := w.tail_lt
  unfold size
  rw [w.size_eq]
  split
  · rfl
  · rw [szAdd_szSub h1 h2 w.cap_max, mod_wrap (by omega)]
    split <;> split <;> omega

theorem size_le {C : Nat} {b : CircularBuffer α} (w : WF C b) : b.size ≤ C := by
  have h1 := w.head_lt
  have h2 := w.tail_lt
  rw [size_val w]
  split
  · exact le_refl C
  · split <;> omega

theorem next_val {C i : Nat} (h1 : i < C) (h2 : C ≤ VECTOR_MAX_SIZE) :
    szAdd i 1 % C = if i + 1 < C then i + 1 else 0 := by
  unfold VECTOR_MAX_SIZE at h2
  rw [szAdd_small (by omega), mod_wrap (by omega)]
  split <;> omega

theorem WF_push {C : Nat} {b : CircularBuffer α} (w : WF C b) (x : α) :
    WF C (b.push x).2 := by
  have h1 := w.head_lt
  have h2 := w.tail_lt
  have h3 := w.full_eq
  have e := w.size_eq
  cases hf : b.m_full
  · refine { cap_pos := w.cap_pos, cap_max := w.cap_max, size_eq := ?_, buf_len := ?_,
             head_lt := ?_, tail_lt := ?_, full_eq := ?_ }
    all_goals simp only [push, hf, e, next_val h1 w.cap_max, Bool.false_eq_true, if_false]
    · simp [w.buf_len]
    · split <;> omega
    · exact h2
    · intro h; simpa using h
  · refine { cap_pos := w.cap_pos, cap_max := w.cap_max, size_eq := ?_, buf_len := ?_,
             head_lt := ?_, tail_lt := ?_, full_eq := ?_ }
    all_goals simp only [push, hf, e, next_val h1 w.cap_max, next_val h2 w.cap_max, if_true]
    · simp [w.buf_len]
    · split <;> omega
    · split <;> omega
    · intro _; rw [h3 hf]

theorem WF_pop {C : Nat} {b : CircularBuffer α} (w : WF C b) : WF C (b.pop).2 := by
  have h2 := w.tail_lt
  have e := w.size_eq
  unfold pop
  split
  · exact w
  · refine { cap_pos := w.cap_pos, cap_max := w.cap_max, size_eq := e, buf_len := w.buf_len,
             head_lt := w.head_lt, tail_lt := ?_, full_eq := ?_ }
    · simp only [e, next_val h2 w.cap_max]
      split <;> omega
    · intro h; simp at h

theorem WF_call {C : Nat} {b : CircularBuffer α} (w : WF C b) (op : Op α) :
    WF C (b.call op).2 := by
  cases op with
  | push x => exact WF_push w x
  | pop => exact WF_pop w
  | getWindow k => exact w

theorem WF_run {C : Nat} (ops : List (Op α)) {b : CircularBuffer α} (w : WF C b) :
    WF C (b.run ops) := by
  induction ops generalizing b with
  | nil => exact w
  | cons op ops ih => exact ih (WF_call w op)

theorem mod_spec {a C : Nat} (h : a < C + C) :
    (a % C = a ∧ a < C) ∨ (a % C + C = a ∧ C ≤ a) := by
  rw [mod_wrap h]
  split <;> omega

theorem next_spec {C i : Nat} (h1 : i < C) (h2 : C ≤ VECTOR_MAX_SIZE) :
    (szAdd i 1 % C = i + 1 ∧ i + 1 < C) ∨ (szAdd i 1 % C = 0 ∧ i + 1 = C) := by
  rw [next_val h1 h2]
  split <;> omega

theorem slice_length (buf : List α) (C s n : Nat) : (slice buf C s n).length = n := by
  simp [slice]

theorem toList_length (b : CircularBuffer α) : b.toList.length = b.size := by
  simp [toList, slice_length]

theorem getD_set_ne (l : List α) (i j : Nat) (x d : α) (h : i ≠ j) :
    (l.set j x).getD i d = l.getD i d := by
  simp [List.getD_eq_getElem?_getD, List.getElem?_set_ne (Ne.symm h)]

theorem getD_set_eq (l : List α) (i : Nat) (x d : α) (h : i < l.length) :
    (l.set i x).getD i d = x := by
  simp [List.getD_eq_getElem?_getD, h]

theorem slice_snoc (buf : List α) (C s n : Nat) :
    slice buf C s (n + 1) = slice buf C s n ++ [buf.getD ((s + n) % C) default] := by
  simp [slice, List.range_succ]

theorem slice_cons (buf : List α) (C s n : Nat) :
    slice buf C s (n + 1) = buf.getD (s % C) default :: slice buf C (s + 1) n := by
  simp only [slice, List.range_succ_eq_map, List.map_cons, List.map_map, Nat.add_zero]
  congr 1
  apply List.map_congr_left
  intro i _
  simp only [Function.comp, Nat.succ_eq_add_one]
  rw [show s + (i + 1) = s + 1 + i by omega]

theorem slice_congr_start (buf : List α) (C s s' n : Nat) (h : s % C = s' % C) :
    slice buf C s n = slice buf C s' n := by
  unfold slice
  apply List.map_congr_left
  intro i _
  rw [Nat.add_mod s, Nat.add_mod s', h]

theorem slice_drop (buf : List α) (C s n k : Nat) :
    (slice buf C s n).drop k = slice buf C (s + k) (n - k) := by
  induction k generalizing s n with
  | zero => simp
  | succ k ih =>
    cases n with
    | zero => simp [slice]
    | succ n =>
      rw [slice_cons, List.drop_succ_cons, ih]
      rw [show s + 1 + k = s + (k + 1) by omega, show n + 1 - (k + 1) = n - k by omega]

theorem slice_set_ne (buf : List α) (C s n j : Nat) (x : α)
    (h : ∀ i, i < n → (s + i) % C ≠ j) :
    slice (buf.set j x) C s n = slice buf C s n := by
  unfold slice
  apply List.map_congr_left
  intro i hi
  exact getD_set_ne buf _ j x default (h i (by simpa using hi))

theorem size_push {C : Nat} {b : CircularBuffer α} (w : WF C b) (x : α) :
    (b.push x).2.size = if b.m_full then C else b.size + 1 := by
  have h1 := w.head_lt
  have h2 := w.tail_lt
  have n1 := next_spec h1 w.cap_max
  have h3 := w.full_eq
  rw [size_val (WF_push w x), size_val w]
  cases hf : b.m_full
  · simp only [push, hf, w.size_eq, Bool.false_eq_true, if_false, beq_iff_eq]
    split_ifs <;> omega
  · simp only [push, hf, if_true]

theorem head_spec {C : Nat} {b : CircularBuffer α} (w : WF C b) (hf : b.m_full = false) :
    (b.m_tail + b.size) % C = b.m_head ∧ b.size < C := by
  have h1 := w.head_lt
  have h2 := w.tail_lt
  rw [size_val w, hf]
  simp only [Bool.false_eq_true, if_false]
  split
  · next h =>
    rw [show b.m_tail + (b.m_head - b.m_tail) = b.m_head by omega]
    exact ⟨Nat.mod_eq_of_lt h1, by omega⟩
  · next h =>
    have m := mod_spec (a := b.m_tail + (b.m_head + C - b.m_tail)) (C := C) (by omega)
    omega

theorem toList_push {C : Nat} {b : CircularBuffer α} (w : WF C b) (x : α) :
    (b.push x).2.toList = Model.push C b.toList x := by
  have h1 := w.head_lt
  have h2 := w.tail_lt
  have hl := w.buf_len
  have e := w.size_eq
  have hs' := size_push w x
  have n2 := next_spec h2 w.cap_max
  unfold Model.push
  rw [toList_length]
  unfold toList
  rw [hs']
  cases hf : b.m_full
  · obtain ⟨hd, hlt⟩ := head_spec w hf
    simp only [push, hf, e, Bool.false_eq_true, if_false]
    rw [if_neg (by omega), slice_snoc, hd, getD_set_eq _ _ _ _ (by omega), slice_set_ne]
    intro i hi
    have m := mod_spec (a := b.m_tail + i) (C := C) (by omega)
    have m' := mod_spec (a := b.m_tail + b.size) (C := C) (by omega)
    omega
  · have ht := w.full_eq hf
    have hsz : b.size = C := by rw [size_val w, hf]; rfl
    simp only [push, hf, e, if_true]
    rw [hsz, if_pos rfl, slice_drop]
    obtain ⟨m, hm⟩ : ∃ m, C = m + 1 := ⟨C - 1, by have := w.cap_pos; omega⟩
    have hstart : (szAdd b.m_tail 1 % C) % C = (b.m_tail + 1) % C := by
      rcases n2 with ⟨a1, a2⟩ | ⟨a1, a2⟩
      · rw [a1]
      · rw [a1, a2]; simp
    rw [slice_congr_start _ _ _ _ _ hstart]
    have hlast : (b.m_tail + 1 + m) % C = b.m_head := by
      have q := mod_spec (a := b.m_tail + 1 + m) (C := C) (by omega)
      omega
    rw [show C - 1 = m by omega]
    have hstep : slice (b.m_buffer.set b.m_head x) C (b.m_tail + 1) C
        = slice (b.m_buffer.set b.m_head x) C (b.m_tail + 1) (m + 1) := by rw [hm]
    rw [hstep, slice_snoc, hlast, getD_set_eq _ _ _ _ (by omega), slice_set_ne]
    intro i hi
    have q := mod_spec (a := b.m_tail + 1 + i) (C := C) (by omega)
    omega

theorem size_empty {C : Nat} {b : CircularBuffer α} (w : WF C b) :
    b.empty = true ↔ b.size = 0 := by
  have h1 := w.head_lt
  have h2 := w.tail_lt
  have hc := w.cap_pos
  rw [size_val w]
  simp only [empty, Bool.and_eq_true, Bool.not_eq_true', beq_iff_eq]
  cases hf : b.m_full
  · simp only [Bool.false_eq_true, if_false, true_and]
    split_ifs <;> omega
  · simp only [if_true, Bool.true_eq_false, false_and, false_iff]
    omega

theorem size_pop {C : Nat} {b : CircularBuffer α} (w : WF C b) :
    (b.pop).2.size = b.size - 1 := by
  have h1 := w.head_lt
  have h2 := w.tail_lt
  have n2 := next_spec h2 w.cap_max
  have h3 := w.full_eq
  by_cases he : b.empty = true
  · have hz := (size_empty w).1 he
    simp only [pop, he, if_true, hz]
  · have hpos : b.size ≠ 0 := fun h => he ((size_empty w).2 h)
    rw [size_val w] at hpos
    rw [size_val (WF_pop w), size_val w]
    simp only [pop, he, Bool.false_eq_true, if_false, w.size_eq]
    cases hf : b.m_full
    · simp only [hf, Bool.false_eq_true, if_false] at hpos
      simp only [Bool.false_eq_true, if_false]
      split_ifs at hpos ⊢ <;> omega
    · have ht := h3 hf
      simp only [if_true]
      split_ifs <;> omega

theorem toList_pop {C : Nat} {b : CircularBuffer α} (w : WF C b) :
    (b.pop).1 = (Model.pop b.toList).1 ∧ (b.pop).2.toList = (Model.pop b.toList).2 := by
  have h2 := w.tail_lt
  have e := w.size_eq
  have n2 := next_spec h2 w.cap_max
  by_cases he : b.empty = true
  · have hz := (size_empty w).1 he
    have hnil : b.toList = [] := List.eq_nil_of_length_eq_zero (by rw [toList_length, hz])
    simp [pop, he, hnil, Model.pop]
  · have hpos : b.size ≠ 0 := fun h => he ((size_empty w).2 h)
    obtain ⟨n, hn⟩ : ∃ n, b.size = n + 1 := ⟨b.size - 1, by omega⟩
    have hsz : (b.pop).2.size = n := by rw [size_pop w, hn]; rfl
    have hcons : b.toList =
        b.m_buffer.getD b.m_tail default :: slice b.m_buffer C (b.m_tail + 1) n := by
      unfold toList
      rw [hn, e, slice_cons, Nat.mod_eq_of_lt h2]
    refine ⟨?_, ?_⟩
    · rw [hcons]; simp [pop, he, Model.pop]
    · rw [hcons]
      simp only [Model.pop]
      unfold toList
      rw [hsz]
      simp only [pop, he, Bool.false_eq_true, if_false, e]
      apply slice_congr_start
      rcases n2 with ⟨a1, a2⟩ | ⟨a1, a2⟩
      · rw [a1]
      · rw [a1, a2]; simp

theorem copyLoop_eq {C : Nat} {b : CircularBuffer α} (w : WF C b) (n : Nat) :
    ∀ (cur : Nat) (acc : List α), cur < C →
      b.copyLoop n cur acc = acc ++ slice b.m_buffer C cur n := by
  induction n with
  | zero => intro cur acc _; simp [copyLoop, slice]
  | succ n ih =>
    intro cur acc hc
    have nx := next_spec hc w.cap_max
    have hlt : szAdd cur 1 % C < C := by omega
    rw [copyLoop, w.size_eq, ih _ _ hlt, slice_cons, Nat.mod_eq_of_lt hc, List.append_assoc,
      List.singleton_append]
    congr 2
    apply slice_congr_start
    rcases nx with ⟨a1, a2⟩ | ⟨a1, a2⟩
    · rw [a1]
    · rw [a1, a2]; simp

theorem getWindow_eq {C : Nat} {b : CircularBuffer α} (w : WF C b) (k : Nat) :
    b.getWindow k = Model.window b.toList k := by
  have h2 := w.tail_lt
  have hle := size_le w
  have hmax := w.cap_max
  unfold Model.window
  rw [toList_length]
  by_cases he : b.empty = true
  · have hz := (size_empty w).1 he
    have hnil : b.toList = [] := List.eq_nil_of_length_eq_zero (by rw [toList_length, hz])
    simp [getWindow, he, hnil]
  · by_cases hk : k = 0
    · subst hk
      simp only [getWindow, beq_self_eq_true, Bool.or_true, if_true, Nat.zero_min, Nat.sub_zero]
      rw [List.drop_eq_nil_of_le (by rw [toList_length])]
    · have hcur : szSub (szAdd b.m_tail b.size) (min k b.size)
          = b.m_tail + b.size - min k b.size := by
        unfold VECTOR_MAX_SIZE at hmax
        rw [szAdd_small (by omega), szSub_small (by omega) (by omega)]
      have hlt : (b.m_tail + b.size - min k b.size) % C < C :=
        Nat.mod_lt _ (by have := w.cap_pos; omega)
      have he' : b.empty = false := by simpa using he
      have hk' : (k == 0) = false := by simpa using hk
      simp only [getWindow, he', hk', Bool.or_self, Bool.false_eq_true, if_false,
        hcur, w.size_eq]
      rw [copyLoop_eq w _ _ _ hlt, List.nil_append]
      unfold toList
      rw [slice_drop, w.size_eq]
      rw [show b.size - (b.size - min k b.size) = min k b.size by omega]
      apply slice_congr_start
      rw [Nat.mod_mod, show b.m_tail + b.size - min k b.size
        = b.m_tail + (b.size - min k b.size) by omega]

theorem full_iff_size {C : Nat} {b : CircularBuffer α} (w : WF C b) :
    b.full = true ↔ b.size = C := by
  unfold full
  cases hf : b.m_full
  · have := (head_spec w hf).2
    simp only [Bool.false_eq_true, false_iff]
    omega
  · simp [size_val w, hf]

theorem queries_eq {C : Nat} {b : CircularBuffer α} (w : WF C b) :
    b.queries = Model.queries C b.toList := by
  unfold queries Model.queries
  rw [toList_length]
  refine Prod.ext rfl (Prod.ext ?_ ?_)
  · show b.empty = b.toList.isEmpty
    rw [Bool.eq_iff_iff, size_empty w, List.isEmpty_iff_length_eq_zero, toList_length]
  · show b.full = (b.size == C)
    rw [Bool.eq_iff_iff, full_iff_size w, beq_iff_eq]

theorem push_fst (b : CircularBuffer α) (x : α) : (b.push x).1 = true := by
  unfold push
  split <;> rfl

theorem call_eq {C : Nat} {b : CircularBuffer α} (w : WF C b) (op : Op α) :
    (b.call op).1 = (Model.call C b.toList op).1 ∧
      (b.call op).2.toList = (Model.call C b.toList op).2 := by
  cases op with
  | push x => exact ⟨congrArg Ret.pushed (push_fst b x), toList_push w x⟩
  | pop => exact ⟨congrArg Ret.popped (toList_pop w).1, (toList_pop w).2⟩
  | getWindow k => exact ⟨congrArg Ret.window (getWindow_eq w k), rfl⟩

theorem run_eq {C : Nat} (ops : List (Op α)) {b : CircularBuffer α} (w : WF C b) :
    (b.run ops).toList = Model.run C b.toList ops := by
  induction ops generalizing b with
  | nil => rfl
  | cons op ops ih =>
    show ((b.call op).2.run ops).toList = Model.run C (Model.call C b.toList op).2 ops
    rw [ih (WF_call w op), (call_eq w op).2]

theorem trace_eq {C : Nat} (ops : List (Op α)) {b : CircularBuffer α} (w : WF C b) :
    b.trace ops = Model.trace C b.toList ops := by
  induction ops generalizing b with
  | nil => rfl
  | cons op ops ih =>
    simp only [trace, Model.trace]
    rw [ih (WF_call w op), queries_eq (WF_call w op), (call_eq w op).1, (call_eq w op).2]

theorem toList_new {C : Nat} (h1 : 1 ≤ C) (h2 : C ≤ VECTOR_MAX_SIZE) :
    (new C : CircularBuffer α).toList = [] := by
  apply List.eq_nil_of_length_eq_zero
  rw [toList_length, size_val (WF_new h1 h2)]
  simp [new]

theorem run_pushes_eq (l xs : List α) :
    Model.run C l (xs.map Op.push) = xs.foldl (Model.push C) l := by
  induction xs generalizing l with
  | nil => rfl
  | cons x xs ih => exact ih (Model.push C l x)

theorem model_pushes {C : Nat} (hC : 1 ≤ C) (xs l : List α) (hl : l.length ≤ C) :
    xs.foldl (Model.push C) l = (l ++ xs).drop ((l ++ xs).length - C) := by
  induction xs generalizing l with
  | nil =>
    simp only [List.foldl_nil, List.append_nil]
    rw [show l.length - C = 0 by omega, List.drop_zero]
  | cons x xs ih =>
    rw [List.foldl_cons]
    by_cases hfull : l.length = C
    · cases l with
      | nil => simp at hfull; omega
      | cons a l0 =>
        have e : Model.push C (a :: l0) x = l0 ++ [x] := by simp [Model.push, hfull]
        have hl0 : l0.length + 1 = C := by simpa using hfull
        rw [e, ih _ (by simp; omega)]
        simp only [List.append_assoc, List.singleton_append, List.length_append,
          List.length_cons, List.cons_append, List.nil_append, List.length_nil, Nat.zero_add]
        rw [show l0.length + (xs.length + 1) + 1 - C = (l0.length + (xs.length + 1) - C) + 1
          by omega, List.drop_succ_cons]
    · have e : Model.push C l x = l ++ [x] := by simp [Model.push, hfull]
      rw [e, ih _ (by simp; omega)]
      simp [List.append_assoc]

theorem popN_spec {C : Nat} (n : Nat) {b : CircularBuffer α} (w : WF C b) :
    (b.popN n).1 = (b.toList.take n).map some ++ List.replicate (n - b.size) none ∧
      (b.popN n).2.toList = b.toList.drop n ∧ WF C (b.popN n).2 := by
  induction n generalizing b with
  | zero => simp [popN, w]
  | succ n ih =>
    obtain ⟨p1, p2⟩ := toList_pop w
    obtain ⟨i1, i2, i3⟩ := ih (WF_pop w)
    have hlen := toList_length b
    have hsz := size_pop w
    simp only [popN]
    rw [i1, i2, p1, p2, hsz]
    refine ⟨?_, ?_, i3⟩
    · cases hb : b.toList with
      | nil =>
        rw [hb] at hlen
        have hz : b.size = 0 := by simpa using hlen.symm
        simp only [Model.pop, List.take_nil, List.map_nil, List.nil_append, hz]
        rw [show n + 1 - 0 = (n - (0 - 1)) + 1 by omega, List.replicate_succ]
      | cons a l0 =>
        rw [hb] at hlen
        have hz : b.size = l0.length + 1 := by simpa using hlen.symm
        simp only [Model.pop, List.take_succ_cons, List.map_cons, List.cons_append, hz]
        rw [show n + 1 - (l0.length + 1) = n - (l0.length + 1 - 1) by omega]
    · cases hb : b.toList with
      | nil => simp [Model.pop]
      | cons a l0 => simp [Model.pop]

theorem window_all (l : List α) (k : Nat) (h : l.length ≤ k) : Model.window l k = l := by
  unfold Model.window
  rw [show l.length - min k l.length = 0 by omega, List.drop_zero]

end CircularBuffer

/-! ## The ring-buffer contract -/

open CircularBuffer

/-- C1: for every capacity `C ≥ 1` (one a `std::vector` can be built with) and
every sequence of more than `C` items pushed onto a fresh buffer, `size()` is
`C`, `full()` is true, and both `getWindow(C)` and `C` successive pops yield
exactly the last `C` pushed items in push order. -/
theorem C1_overflow_keeps_last {α : Type} [Inhabited α] (C : Nat) (xs : List α)
    (hC : 1 ≤ C) (hmax : C ≤ VECTOR_MAX_SIZE) (hn : C < xs.length) :
    ((new C).run (xs.map Op.push)).size = C ∧
    ((new C).run (xs.map Op.push)).full = true ∧
    ((new C).run (xs.map Op.push)).getWindow C = xs.drop (xs.length - C) ∧
    (((new C).run (xs.map Op.push)).popN C).1 = (xs.drop (xs.length - C)).map some := by
  have w : WF C ((new C : CircularBuffer α).run (xs.map Op.push)) :=
    WF_run _ (WF_new hC hmax)
  have hl : ((new C : CircularBuffer α).run (xs.map Op.push)).toList
      = xs.drop (xs.length - C) := by
    rw [run_eq _ (WF_new hC hmax), toList_new hC hmax, run_pushes_eq,
      model_pushes hC xs [] (by simp)]
    simp
  have hlen : (xs.drop (xs.length - C)).length = C := by
    rw [List.length_drop]; omega
  have hsz : ((new C : CircularBuffer α).run (xs.map Op.push)).size = C := by
    rw [← toList_length, hl, hlen]
  refine ⟨hsz, (full_iff_size w).2 hsz, ?_, ?_⟩
  · rw [getWindow_eq w, hl, window_all _ _ (by omega)]
  · rw [(popN_spec C w).1, hl, hsz, Nat.sub_self, List.replicate_zero, List.append_nil,
      List.take_of_length_le (by omega)]

/-- Witness for C1: capacity 2, pushes 1, 2, 3. -/
theorem C1_overflow_keeps_last_witness :
    (1 ≤ 2 ∧ 2 ≤ VECTOR_MAX_SIZE ∧ 2 < [1, 2, 3].length) ∧
    (((new 2).run ([1, 2, 3].map Op.push)).size = 2 ∧
     ((new 2).run ([1, 2, 3].map Op.push)).full = true ∧
     ((new 2).run ([1, 2, 3].map Op.push)).getWindow 2 = [1, 2, 3].drop ([1, 2, 3].length - 2) ∧
     (((new 2).run ([1, 2, 3].map Op.push)).popN 2).1
       = ([1, 2, 3].drop ([1, 2, 3].length - 2)).map some) :=
  ⟨by decide, C1_overflow_keeps_last 2 [1, 2, 3] (by decide) (by decide) (by decide)⟩

/-- C2: in every state reached from a fresh buffer of capacity `C ≥ 1` by
pushes, pops and window reads, `getWindow(k)` is the last `min(k, size())` of
the surviving items (the list model's items, oldest first), it is empty when
`k = 0` or the buffer is empty, and the call hands the buffer back unchanged. -/
theorem C2_getWindow_most_recent {α : Type} [Inhabited α] (C : Nat) (ops : List (Op α))
    (k : Nat) (hC : 1 ≤ C) (hmax : C ≤ VECTOR_MAX_SIZE) :
    ((new C).run ops).getWindow k
      = (Model.run C [] ops).drop ((Model.run C [] ops).length - min k ((new C).run ops).size) ∧
    (((new C).run ops).getWindow k).length = min k ((new C).run ops).size ∧
    (Model.run C [] ops).length = ((new C).run ops).size ∧
    (k = 0 ∨ ((new C).run ops).empty = true → ((new C).run ops).getWindow k = []) ∧
    (((new C).run ops).call (Op.getWindow k)).2 = (new C).run ops := by
  have w : WF C ((new C : CircularBuffer α).run ops) := WF_run _ (WF_new hC hmax)
  have hl : ((new C : CircularBuffer α).run ops).toList = Model.run C [] ops := by
    rw [run_eq _ (WF_new hC hmax), toList_new hC hmax]
  have hlen : (Model.run C [] ops).length = ((new C : CircularBuffer α).run ops).size := by
    rw [← hl, toList_length]
  have hwin : ((new C : CircularBuffer α).run ops).getWindow k
      = (Model.run C [] ops).drop
          ((Model.run C [] ops).length - min k ((new C).run ops).size) := by
    rw [getWindow_eq w, hl, Model.window, hlen]
  refine ⟨hwin, ?_, hlen, ?_, rfl⟩
  · rw [hwin, List.length_drop, hlen]; omega
  · intro h
    apply List.eq_nil_of_length_eq_zero
    rw [hwin, List.length_drop, hlen]
    rcases h with h | h
    · subst h; simp
    · rw [(size_empty w).1 h]; simp

/-- Witness for C2: capacity 3, four pushes and a pop, window of 2. -/
theorem C2_getWindow_most_recent_witness :
    (1 ≤ 3 ∧ 3 ≤ VECTOR_MAX_SIZE) ∧
    ((new 3).run [Op.push 1, Op.push 2, Op.push 3, Op.push 4, Op.pop]).getWindow 2 = [3, 4] :=
  ⟨by decide, (C2_getWindow_most_recent 3
    [Op.push 1, Op.push 2, Op.push 3, Op.push 4, Op.pop] 2 (by decide) (by decide)).1.trans
      (by decide)⟩

/-- C3: `pop()` on an empty buffer returns nothing and leaves the state as it
was; and after `C` pushes onto a fresh buffer of capacity `C ≥ 1`, each of `C`
consecutive pops returns a value (the items in push order) and the buffer ends
empty: `empty()` true, `size()` zero, `full()` false. -/
theorem C3_pop_empty_and_drain {α : Type} [Inhabited α] (b0 : CircularBuffer α) (C : Nat)
    (xs : List α) (he : b0.empty = true) (hC : 1 ≤ C) (hmax : C ≤ VECTOR_MAX_SIZE)
    (hn : xs.length = C) :
    b0.pop = (none, b0) ∧
    (((new C).run (xs.map Op.push)).popN C).1 = xs.map some ∧
    (∀ r ∈ (((new C).run (xs.map Op.push)).popN C).1, r.isSome = true) ∧
    (((new C).run (xs.map Op.push)).popN C).2.empty = true ∧
    (((new C).run (xs.map Op.push)).popN C).2.size = 0 ∧
    (((new C).run (xs.map Op.push)).popN C).2.full = false := by
  have w : WF C ((new C : CircularBuffer α).run (xs.map Op.push)) :=
    WF_run _ (WF_new hC hmax)
  have hl : ((new C : CircularBuffer α).run (xs.map Op.push)).toList = xs := by
    rw [run_eq _ (WF_new hC hmax), toList_new hC hmax, run_pushes_eq,
      model_pushes hC xs [] (by simp)]
    simp [hn]
  have hsz : ((new C : CircularBuffer α).run (xs.map Op.push)).size = C := by
    rw [← toList_length, hl, hn]
  obtain ⟨q1, q2, q3⟩ := popN_spec C w
  have hres : (((new C : CircularBuffer α).run (xs.map Op.push)).popN C).1 = xs.map some := by
    rw [q1, hl, hsz, Nat.sub_self, List.replicate_zero, List.append_nil,
      List.take_of_length_le (by omega)]
  have hz : (((new C : CircularBuffer α).run (xs.map Op.push)).popN C).2.size = 0 := by
    rw [← toList_length, q2, hl, List.length_drop]; omega
  refine ⟨by simp [pop, he], hres, ?_, (size_empty q3).2 hz, hz, ?_⟩
  · intro r hr
    rw [hres] at hr
    obtain ⟨a, _, rfl⟩ := List.mem_map.1 hr
    rfl
  · cases hf : ((((new C : CircularBuffer α).run (xs.map Op.push)).popN C).2).full
    · rfl
    · have := (full_iff_size q3).1 hf
      omega

/-- Witness for C3: the fresh capacity-2 buffer is empty; two pushes, two pops. -/
theorem C3_pop_empty_and_drain_witness :
    ((new 2 : CircularBuffer Nat).empty = true ∧ 1 ≤ 2 ∧ 2 ≤ VECTOR_MAX_SIZE ∧
      [10, 20].length = 2) ∧
    ((new 2 : CircularBuffer Nat).pop = (none, new 2) ∧
     (((new 2).run ([10, 20].map Op.push)).popN 2).1 = [10, 20].map some ∧
     (∀ r ∈ (((new 2).run ([10, 20].map Op.push)).popN 2).1, r.isSome = true) ∧
     (((new 2).run ([10, 20].map Op.push)).popN 2).2.empty = true ∧
     (((new 2).run ([10, 20].map Op.push)).popN 2).2.size = 0 ∧
     (((new 2).run ([10, 20].map Op.push)).popN 2).2.full = false) :=
  ⟨by decide, C3_pop_empty_and_drain (new 2) 2 [10, 20] (by decide) (by decide) (by decide)
    (by decide)⟩

/-- C4: for every capacity `C ≥ 1` and every finite sequence of calls on a
fresh buffer, every call result and every `size()`, `empty()`, `full()` answer
equals the answer of the list model, in which push appends (dropping the front
item first when `C` items are held) and pop removes the front item. -/
theorem C4_refines_list_model {α : Type} [Inhabited α] (C : Nat) (ops : List (Op α))
    (hC : 1 ≤ C) (hmax : C ≤ VECTOR_MAX_SIZE) :
    (new C).trace ops = Model.trace C [] ops := by
  rw [trace_eq ops (WF_new hC hmax), toList_new hC hmax]

/-- Witness for C4: capacity 2, an interleaving with an overwrite and a pop on
the drained buffer. -/
theorem C4_refines_list_model_witness :
    (1 ≤ 2 ∧ 2 ≤ VECTOR_MAX_SIZE) ∧
    (new 2).trace [Op.push 1, Op.push 2, Op.push 3, Op.pop, Op.pop, Op.pop]
      = [(Ret.pushed true, 1, false, false), (Ret.pushed true, 2, false, true),
         (Ret.pushed true, 2, false, true), (Ret.popped (some 2), 1, false, false),
         (Ret.popped (some 3), 0, true, false), (Ret.popped none, 0, true, false)] :=
  ⟨by decide, (C4_refines_list_model 2
    [Op.push 1, Op.push 2, Op.push 3, Op.pop, Op.pop, Op.pop] (by decide) (by decide)).trans
      (by decide)⟩

/-- C5: in every state reached from a fresh buffer of capacity `C ≥ 1` by
pushes, pops and window reads, `size()` is at most `C`, `empty()` holds exactly
when the full flag is clear and `head == tail`, and `full()` implies
`size() == C`. -/
theorem C5_size_empty_full_invariant {α : Type} [Inhabited α] (C : Nat) (ops : List (Op α))
    (hC : 1 ≤ C) (hmax : C ≤ VECTOR_MAX_SIZE) :
    0 ≤ ((new C).run ops).size ∧ ((new C).run ops).size ≤ C ∧
    (((new C).run ops).empty = true ↔
      (((new C).run ops).m_full = false ∧ ((new C).run ops).m_head = ((new C).run ops).m_tail)) ∧
    (((new C).run ops).full = true → ((new C).run ops).size = C) := by
  have w : WF C ((new C : CircularBuffer α).run ops) := WF_run _ (WF_new hC hmax)
  refine ⟨Nat.zero_le _, size_le w, ?_, (full_iff_size w).1⟩
  simp [empty]

/-- Witness for C5: capacity 2 after three pushes and a pop. -/
theorem C5_size_empty_full_invariant_witness :
    (1 ≤ 2 ∧ 2 ≤ VECTOR_MAX_SIZE) ∧
    ((new 2).run [Op.push 1, Op.push 2, Op.push 3, Op.pop]).size ≤ 2 :=
  ⟨by decide, (C5_size_empty_full_invariant 2 [Op.push 1, Op.push 2, Op.push 3, Op.pop]
    (by decide) (by decide)).2.1⟩

/-- C6: in every state reached from a fresh buffer of capacity `C ≥ 1`,
`push(item)` returns true; when the buffer was full, `size()` is still `C`
afterwards, the buffer is still full, and the contents (read by
`getWindow(C)`) are the previous contents without their oldest item, followed
by the new item. -/
theorem C6_push_never_rejects {α : Type} [Inhabited α] (C : Nat) (ops : List (Op α))
    (item : α) (hC : 1 ≤ C) (hmax : C ≤ VECTOR_MAX_SIZE) :
    (((new C).run ops).push item).1 = true ∧
    (((new C).run ops).full = true →
      (((new C).run ops).push item).2.size = C ∧
      (((new C).run ops).push item).2.full = true ∧
      (((new C).run ops).push item).2.getWindow C
        = (((new C).run ops).getWindow C).drop 1 ++ [item]) := by
  have w : WF C ((new C : CircularBuffer α).run ops) := WF_run _ (WF_new hC hmax)
  have w2 := WF_push w item
  refine ⟨push_fst _ item, fun hf => ?_⟩
  have hsz := (full_iff_size w).1 hf
  have hsz2 : (((new C : CircularBuffer α).run ops).push item).2.size = C := by
    rw [size_push w item]
    unfold full at hf
    rw [hf]; rfl
  refine ⟨hsz2, (full_iff_size w2).2 hsz2, ?_⟩
  rw [getWindow_eq w2, getWindow_eq w,
    window_all _ _ (by rw [toList_length, hsz2]),
    window_all _ _ (by rw [toList_length, hsz]), toList_push w item]
  simp [Model.push, toList_length, hsz]

/-- Witness for C6: capacity 2, full after two pushes, then a third push. -/
theorem C6_push_never_rejects_witness :
    (1 ≤ 2 ∧ 2 ≤ VECTOR_MAX_SIZE ∧ ((new 2).run [Op.push 1, Op.push 2]).full = true) ∧
    ((((new 2).run [Op.push 1, Op.push 2]).push 3).1 = true ∧
     (((new 2).run [Op.push 1, Op.push 2]).push 3).2.size = 2 ∧
     (((new 2).run [Op.push 1, Op.push 2]).push 3).2.full = true ∧
     (((new 2).run [Op.push 1, Op.push 2]).push 3).2.getWindow 2
        = (((new 2).run [Op.push 1, Op.push 2]).getWindow 2).drop 1 ++ [3]) :=
  ⟨by decide,
   (C6_push_never_rejects 2 [Op.push 1, Op.push 2] 3 (by decide) (by decide)).1,
   (C6_push_never_rejects 2 [Op.push 1, Op.push 2] 3 (by decide) (by decide)).2 (by decide)⟩

/-- C7: the declaration of `push` documents that it returns false when the
buffer is full; on the full capacity-1 buffer holding `7`, `push(8)` returns
true (and overwrites `7`). -/
theorem C7_push_on_full_returns_true :
    ((new 1 : CircularBuffer Nat).push 7).2.full = true ∧
    ((((new 1 : CircularBuffer Nat).push 7).2).push 8).1 = true ∧
    ((((new 1 : CircularBuffer Nat).push 7).2).push 8).2.getWindow 1 = [8] := by
  decide

/-! ## Moving average and the aggregator loop -/

open DataProcessor

theorem foldl_add_eq_sum {β : Type} (f : β → ℚ) (l : List β) (a : ℚ) :
    l.foldl (fun sum d => sum + f d) a = a + (l.map f).sum := by
  induction l generalizing a with
  | nil => simp
  | cons x xs ih => rw [List.foldl_cons, ih, List.map_cons, List.sum_cons, add_assoc]

theorem computeMovingAverage_eq (window : List SensorData) (c : Fin NUM_SENSORS)
    (h : window ≠ []) :
    computeMovingAverage window c
      = (window.map (fun d => d.values c)).sum / (window.length : ℚ) := by
  have hne : window.isEmpty = false := by
    cases window with
    | nil => exact absurd rfl h
    | cons a l => rfl
  simp only [computeMovingAverage, hne, Bool.false_eq_true, if_false]
  rw [foldl_add_eq_sum, zero_add]

theorem warmup_window {W : Nat} (hW : 1 ≤ W) (hmax : W ≤ VECTOR_MAX_SIZE)
    (xs : List SensorData) (hj : xs.length < W) :
    ((new W).run (xs.map Op.push)).getWindow W = xs := by
  have w : WF W ((new W : CircularBuffer SensorData).run (xs.map Op.push)) :=
    WF_run _ (WF_new hW hmax)
  have hl : ((new W : CircularBuffer SensorData).run (xs.map Op.push)).toList = xs := by
    rw [run_eq _ (WF_new hW hmax), toList_new hW hmax, run_pushes_eq,
      model_pushes hW xs [] (by simp)]
    simp only [List.nil_append]
    rw [show xs.length - W = 0 by omega, List.drop_zero]
  rw [getWindow_eq w, hl, window_all _ _ (by omega)]

/-- C8: for every non-empty window, `computeMovingAverage` returns for each
channel the sum of that channel's values over the window divided by the number
of samples in the window (exact arithmetic); in particular during warm-up,
after `j < window_size` pushes into the fresh window buffer, the window read by
`getWindow(window_size)` is those `j` samples and the divisor is `j`. -/
theorem C8_moving_average_is_mean (window : List SensorData) (c : Fin NUM_SENSORS)
    (W : Nat) (xs : List SensorData) (h : window ≠ []) (hW : 1 ≤ W)
    (hmax : W ≤ VECTOR_MAX_SIZE) (hxs : xs ≠ []) (hj : xs.length < W) :
    computeMovingAverage window c
      = (window.map (fun d => d.values c)).sum / (window.length : ℚ) ∧
    computeMovingAverage (((new W).run (xs.map Op.push)).getWindow W) c
      = (xs.map (fun d => d.values c)).sum / (xs.length : ℚ) := by
  refine ⟨computeMovingAverage_eq window c h, ?_⟩
  rw [warmup_window hW hmax xs hj]
  exact computeMovingAverage_eq xs c hxs

/-- Witness for C8: a three-sample window, and a two-sample warm-up of a
window buffer of size 3. -/
theorem C8_moving_average_is_mean_witness :
    computeMovingAverage [constantSample 1 0, constantSample 2 1, constantSample 6 2] 0 = 3 ∧
    computeMovingAverage
      (((new 3).run ([constantSample 1 0, constantSample 4 1].map Op.push)).getWindow 3) 0
        = 5 / 2 := by
  have h := C8_moving_average_is_mean
    [constantSample 1 0, constantSample 2 1, constantSample 6 2] 0 3
    [constantSample 1 0, constantSample 4 1] (by simp) (by decide) (by decide) (by simp)
    (by decide)
  refine ⟨h.1.trans ?_, h.2.trans ?_⟩ <;> norm_num [constantSample]

theorem model_push_length {α : Type} {W : Nat} (hW : 1 ≤ W) (l : List α) (d : α)
    (hl : l.length ≤ W) :
    1 ≤ (Model.push W l d).length ∧ (Model.push W l d).length ≤ W := by
  unfold Model.push
  split
  · next h => simp only [List.length_append, List.length_drop, List.length_singleton]; omega
  · next h => simp only [List.length_append, List.length_singleton]; omega

theorem processingStep_none (p : DataProcessor)
    (hpop : (p.m_simulator.getLatestData).1 = none) :
    p.processingStep = { p with m_simulator := (p.m_simulator.getLatestData).2 } := by
  unfold processingStep
  split
  · next sim h => rw [h]
  · next d sim h => rw [h] at hpop; exact absurd hpop (by simp)

theorem processingStep_some {W : Nat} (p : DataProcessor) (d : SensorData)
    (w : WF W p.window_buffer) (hcfg : toSizeT p.m_config.moving_avg_window = W)
    (hpop : (p.m_simulator.getLatestData).1 = some d) :
    p.processingStep =
      { p with
        m_simulator := (p.m_simulator.getLatestData).2
        window_buffer := (p.window_buffer.push d).2
        m_msg_counter := (p.m_msg_counter + 1) % SIZE_MOD
        sent := p.sent ++
          [{ msg_id := p.m_msg_counter
             avg_values := computeMovingAverage (Model.push W p.window_buffer.toList d)
             timestamp := d.timestamp }] } := by
  have hW := w.cap_pos
  have hlen := model_push_length hW p.window_buffer.toList d
    (by rw [toList_length]; exact size_le w)
  have hwin : (p.window_buffer.push d).2.getWindow W = Model.push W p.window_buffer.toList d := by
    rw [getWindow_eq (WF_push w d), toList_push w d, window_all _ _ hlen.2]
  have hne : (Model.push W p.window_buffer.toList d).isEmpty = false := by
    cases h : Model.push W p.window_buffer.toList d with
    | nil => rw [h] at hlen; simp at hlen
    | cons a l => rfl
  unfold processingStep
  split
  · next sim h => rw [h] at hpop; exact absurd hpop (by simp)
  · next d' sim h =>
    rw [h] at hpop
    have hd : d' = d := by simpa using hpop
    subst hd
    simp only [hcfg, hwin, hne, Bool.not_false, if_true]
    rw [h]

theorem drained_start {R W : Nat} (config : Config) (hR : 1 ≤ R) (hRmax : R ≤ VECTOR_MAX_SIZE)
    (hW : 1 ≤ W) (hWmax : W ≤ VECTOR_MAX_SIZE) (hcfg : toSizeT config.moving_avg_window = W) :
    Drained R W (start config { m_buffer := new R }) [] 0 [] :=
  { wfR := WF_new hR hRmax
    wfW := by
      show WF W (new (toSizeT config.moving_avg_window))
      rw [hcfg]; exact WF_new hW hWmax
    cfg := hcfg
    reservoir := toList_new hR hRmax
    window := by
      show (new (toSizeT config.moving_avg_window) : CircularBuffer SensorData).toList = []
      rw [hcfg]; exact toList_new hW hWmax
    counter := rfl
    log := rfl }

theorem drained_round {R W : Nat} {p : DataProcessor} {wl : List SensorData} {c : Nat}
    {sent : List MQMessage} (h : Drained R W p wl c sent) (hc : c + 1 < SIZE_MOD)
    (d : SensorData) :
    Drained R W ((p.tick (Tick.produce d)).tick Tick.process) (Model.push W wl d) (c + 1)
      (sent ++ [{ msg_id := c, avg_values := computeMovingAverage (Model.push W wl d),
                  timestamp := d.timestamp }]) := by
  obtain ⟨wfR, wfW, cfg, hres, hwin, hctr, hlog⟩ := h
  have hR := wfR.cap_pos
  have wfR1 := WF_push wfR d
  have hl1 : (p.m_simulator.m_buffer.push d).2.toList = [d] := by
    rw [toList_push wfR d, hres]
    have : ([] : List SensorData).length ≠ R := by simp; omega
    simp [Model.push, this]
  obtain ⟨q1, q2⟩ := toList_pop wfR1
  rw [hl1] at q1 q2
  have hpop : ((p.tick (Tick.produce d)).m_simulator.getLatestData).1 = some d := q1
  have hstep := processingStep_some (p.tick (Tick.produce d)) d wfW cfg hpop
  show Drained R W (p.tick (Tick.produce d)).processingStep _ _ _
  rw [hstep]
  exact
    { wfR := WF_pop wfR1
      wfW := WF_push wfW d
      cfg := cfg
      reservoir := q2
      window := by
        show (p.window_buffer.push d).2.toList = _
        rw [toList_push wfW d, hwin]
      counter := by
        show (p.m_msg_counter + 1) % SIZE_MOD = c + 1
        rw [hctr, Nat.mod_eq_of_lt hc]
      log := by
        show p.sent ++ [MQMessage.mk p.m_msg_counter
          (computeMovingAverage (Model.push W p.window_buffer.toList d)) d.timestamp] = _
        rw [hlog, hctr, hwin] }

theorem runTicks_round (p : DataProcessor) (d : SensorData) (ds : List SensorData) :
    p.runTicks (pushThenAggregate (d :: ds))
      = ((p.tick (Tick.produce d)).tick Tick.process).runTicks (pushThenAggregate ds) := by
  simp only [runTicks, pushThenAggregate, List.flatMap_cons, List.cons_append,
    List.nil_append, List.foldl_cons]

theorem drained_rounds {R W : Nat} (samples : List SensorData) {p : DataProcessor}
    {wl : List SensorData} {c : Nat} {sent : List MQMessage} (h : Drained R W p wl c sent)
    (hc : c + samples.length < SIZE_MOD) :
    Drained R W (p.runTicks (pushThenAggregate samples)) (samples.foldl (Model.push W) wl)
      (c + samples.length) (sent ++ expectedLog W wl c samples) := by
  induction samples generalizing p wl c sent with
  | nil => simpa [runTicks, pushThenAggregate, expectedLog] using h
  | cons d ds ih =>
    have hlen : (d :: ds).length = ds.length + 1 := rfl
    rw [hlen] at hc
    have step := ih (drained_round h (by omega) d) (by omega)
    rw [runTicks_round, List.foldl_cons, hlen, expectedLog,
      show c + (ds.length + 1) = c + 1 + ds.length by omega]
    rw [List.append_assoc, List.singleton_append] at step
    exact step

/-- C9: with a reservoir of capacity 5 and a window of 3, pushing six samples
whose channel-0 values are 1, 2, 3, 4, 5, 6 and running one aggregator
iteration after each push hands six messages with ids 0 to 5 to the channel;
the third carries the channel-0 mean 2 and the sixth the channel-0 mean 5. -/
theorem C9_end_to_end (rate : Int) (s1 s2 s3 s4 s5 s6 : SensorData)
    (h1 : s1.values 0 = 1) (h2 : s2.values 0 = 2) (h3 : s3.values 0 = 3)
    (h4 : s4.values 0 = 4) (h5 : s5.values 0 = 5) (h6 : s6.values 0 = 6) :
    (((start { sampling_rate_ms := rate, moving_avg_window := 3 } { m_buffer := new 5 }).runTicks
        (pushThenAggregate [s1, s2, s3, s4, s5, s6])).sent.map
          (fun m => (m.msg_id, m.avg_values 0)))
      = [(0, 1), (1, 3 / 2), (2, 2), (3, 3), (4, 4), (5, 5)] := by
  have d0 : Drained 5 3
      (start { sampling_rate_ms := rate, moving_avg_window := 3 } { m_buffer := new 5 })
      [] 0 [] :=
    drained_start _ (by decide) (by decide) (by decide) (by decide) rfl
  have e := (drained_rounds [s1, s2, s3, s4, s5, s6] d0 (by simp [SIZE_MOD])).log
  rw [e]
  simp only [expectedLog, Model.push, List.length_nil, List.length_cons, List.length_append,
    List.nil_append, List.cons_append, List.drop_succ_cons, List.drop_zero,
    Nat.reduceAdd, Nat.reduceEqDiff, if_false, if_true, List.map_cons, List.map_nil]
  rw [computeMovingAverage_eq _ _ (by simp), computeMovingAverage_eq _ _ (by simp),
    computeMovingAverage_eq _ _ (by simp), computeMovingAverage_eq _ _ (by simp),
    computeMovingAverage_eq _ _ (by simp), computeMovingAverage_eq _ _ (by simp)]
  simp only [List.map_cons, List.map_nil, List.sum_cons, List.sum_nil, List.length_cons,
    List.length_nil, h1, h2, h3, h4, h5, h6]
  norm_num

/-- Witness for C9: six readings carrying 1 to 6 on every channel. -/
theorem C9_end_to_end_witness :
    (((start { sampling_rate_ms := 100, moving_avg_window := 3 } { m_buffer := new 5 }).runTicks
        (pushThenAggregate [constantSample 1 0, constantSample 2 1, constantSample 3 2,
          constantSample 4 3, constantSample 5 4, constantSample 6 5])).sent.map
          (fun m => (m.msg_id, m.avg_values 0)))
      = [(0, 1), (1, 3 / 2), (2, 2), (3, 3), (4, 4), (5, 5)] :=
  C9_end_to_end 100 (constantSample 1 0) (constantSample 2 1) (constantSample 3 2)
    (constantSample 4 3) (constantSample 5 4) (constantSample 6 5) rfl rfl rfl rfl rfl rfl

theorem toSizeT_window {i : Int} (h1 : 1 ≤ i) (h2 : i ≤ INT_MAX) :
    1 ≤ toSizeT i ∧ toSizeT i ≤ VECTOR_MAX_SIZE := by
  unfold toSizeT SIZE_MOD VECTOR_MAX_SIZE
  unfold INT_MAX at h2
  have e : (((2 : Nat) ^ 64 : Nat) : Int) = 18446744073709551616 := by norm_num
  rw [e]
  omega

theorem counting_start (config : Config) (simulator : SensorSimulator)
    (h1 : 1 ≤ config.moving_avg_window) (h2 : config.moving_avg_window ≤ INT_MAX) :
    Counting (toSizeT config.moving_avg_window) (start config simulator) 0 :=
  { wfW := WF_new (toSizeT_window h1 h2).1 (toSizeT_window h1 h2).2
    cfg := rfl
    counter := rfl
    ids := rfl
    bound := Nat.le_refl 0 }

theorem counting_tick {W n : Nat} {p : DataProcessor} (h : Counting W p n)
    (hn : n + 1 < SIZE_MOD) (t : Tick) : Counting W (p.tick t) (n + 1) := by
  obtain ⟨wfW, cfg, hctr, hids, hb⟩ := h
  cases t with
  | produce d =>
    exact { wfW := wfW, cfg := cfg, counter := hctr, ids := hids, bound := by
              show p.sent.length ≤ n + 1
              omega }
  | process =>
    show Counting W p.processingStep (n + 1)
    cases hpop : (p.m_simulator.getLatestData).1 with
    | none =>
      rw [processingStep_none p hpop]
      exact { wfW := wfW, cfg := cfg, counter := hctr, ids := hids, bound := by
                show p.sent.length ≤ n + 1
                omega }
    | some d =>
      rw [processingStep_some p d wfW cfg hpop]
      exact
        { wfW := WF_push wfW d
          cfg := cfg
          counter := by
            show (p.m_msg_counter + 1) % SIZE_MOD = (p.sent ++ [_]).length
            rw [hctr, Nat.mod_eq_of_lt (by omega), List.length_append, List.length_singleton]
          ids := by
            show (p.sent ++ [_]).map MQMessage.msg_id = List.range (p.sent ++ [_]).length
            rw [List.map_append, hids, List.length_append, List.length_singleton,
              List.range_succ, List.map_singleton, hctr]
          bound := by
            show (p.sent ++ [_]).length ≤ n + 1
            rw [List.length_append, List.length_singleton]
            omega }

theorem counting_runTicks {W : Nat} (ticks : List Tick) {n : Nat} {p : DataProcessor}
    (h : Counting W p n) (hn : n + ticks.length < SIZE_MOD) :
    Counting W (p.runTicks ticks) (n + ticks.length) := by
  induction ticks generalizing p n with
  | nil => exact h
  | cons t ts ih =>
    have hlen : (t :: ts).length = ts.length + 1 := rfl
    rw [hlen] at hn
    have step := ih (counting_tick h (by omega) t) (by omega)
    rw [hlen, show n + (ts.length + 1) = n + 1 + ts.length by omega]
    exact step

/-- C10: in every iteration of `processingLoop` (window size at least 1, state
reached from the start of the loop by any schedule of producer pushes and
aggregator iterations short enough that the 64-bit counter has not wrapped):
when `getLatestData` returns nothing, no message is handed to `sendMessage`
and `m_msg_counter` is unchanged; when it returns a sample, exactly one message
is handed over, carrying the counter's previous value as `msg_id` and the
sample's timestamp, and the counter grows by one. The ids handed over so far
are `0, 1, 2, ...` without gaps. -/
theorem C10_ids_follow_counter (config : Config) (simulator : SensorSimulator)
    (ticks : List Tick) (p : DataProcessor)
    (hW : 1 ≤ config.moving_avg_window) (hWmax : config.moving_avg_window ≤ INT_MAX)
    (hlen : ticks.length + 1 < SIZE_MOD)
    (hp : p = (start config simulator).runTicks ticks) :
    ((p.m_simulator.getLatestData).1 = none →
      p.processingStep.sent = p.sent ∧ p.processingStep.m_msg_counter = p.m_msg_counter) ∧
    (∀ data, (p.m_simulator.getLatestData).1 = some data →
      ∃ msg, p.processingStep.sent = p.sent ++ [msg] ∧ msg.msg_id = p.m_msg_counter ∧
        msg.timestamp = data.timestamp ∧
        p.processingStep.m_msg_counter = p.m_msg_counter + 1) ∧
    p.sent.map MQMessage.msg_id = List.range p.sent.length ∧
    p.m_msg_counter = p.sent.length := by
  have hc : Counting (toSizeT config.moving_avg_window) p (0 + ticks.length) := by
    rw [hp]
    exact counting_runTicks ticks (counting_start config simulator hW hWmax) (by omega)
  obtain ⟨wfW, cfg, hctr, hids, hb⟩ := hc
  refine ⟨fun hnone => ?_, fun data hsome => ?_, hids, hctr⟩
  · rw [processingStep_none p hnone]
    exact ⟨rfl, rfl⟩
  · rw [processingStep_some p data wfW cfg hsome]
    refine ⟨_, rfl, rfl, rfl, ?_⟩
    show (p.m_msg_counter + 1) % SIZE_MOD = p.m_msg_counter + 1
    exact Nat.mod_eq_of_lt (by omega)

/-- Witness for C10: window 3, one reading produced, then two aggregator
iterations (the second finds the reservoir empty). -/
theorem C10_ids_follow_counter_witness :
    ((1 : Int) ≤ 3 ∧ (3 : Int) ≤ INT_MAX ∧
      [Tick.produce (constantSample 1 7), Tick.process, Tick.process].length + 1 < SIZE_MOD) ∧
    (((start { sampling_rate_ms := 100, moving_avg_window := 3 } { m_buffer := new 5 }).runTicks
        [Tick.produce (constantSample 1 7), Tick.process, Tick.process]).sent.map
          MQMessage.msg_id
      = List.range
          ((start { sampling_rate_ms := 100, moving_avg_window := 3 }
            { m_buffer := new 5 }).runTicks
              [Tick.produce (constantSample 1 7), Tick.process, Tick.process]).sent.length ∧
     ((start { sampling_rate_ms := 100, moving_avg_window := 3 } { m_buffer := new 5 }).runTicks
        [Tick.produce (constantSample 1 7), Tick.process, Tick.process]).m_msg_counter
      = ((start { sampling_rate_ms := 100, moving_avg_window := 3 }
            { m_buffer := new 5 }).runTicks
              [Tick.produce (constantSample 1 7), Tick.process, Tick.process]).sent.length) :=
  ⟨by decide,
   (C10_ids_follow_counter { sampling_rate_ms := 100, moving_avg_window := 3 }
      { m_buffer := new 5 } [Tick.produce (constantSample 1 7), Tick.process, Tick.process]
      _ (by decide) (by decide) (by decide) rfl).2.2⟩

/-! ## The message channel -/

open IPCManager

theorem mq_send_calls (ch : Channel) (q : mqd_t) (msg : MQMessage) :
    (ch.mq_send q msg).2.calls = ch.calls ++ [MQCall.mq_send] := by
  unfold Channel.mq_send
  cases q
  · rfl
  · simp only; split <;> rfl
  · rfl

theorem mq_receive_calls (ch : Channel) (q : mqd_t) :
    (ch.mq_receive q).2.calls = ch.calls ++ [MQCall.mq_receive] := by
  unfold Channel.mq_receive
  cases q
  · rfl
  · rfl
  · simp only; split <;> rfl

theorem sendMessage_rejected (m : IPCManager) (ch : Channel) (msg : MQMessage)
    (h : ¬ (m.m_is_initialized = true ∧ m.m_is_sender = true)) :
    m.sendMessage ch msg = (ErrorCode.QUEUE_SEND_ERROR, ch) := by
  unfold sendMessage
  cases hi : m.m_is_initialized <;> cases hs : m.m_is_sender <;> simp_all

theorem receiveMessage_rejected (m : IPCManager) (ch : Channel)
    (h : ¬ (m.m_is_initialized = true ∧ m.m_is_sender = false)) :
    m.receiveMessage ch = (none, ch) := by
  unfold receiveMessage
  cases hi : m.m_is_initialized <;> cases hs : m.m_is_sender <;> simp_all

theorem sendMessage_calls (m : IPCManager) (ch : Channel) (msg : MQMessage)
    (hi : m.m_is_initialized = true) (hs : m.m_is_sender = true) :
    (m.sendMessage ch msg).2.calls = ch.calls ++ [MQCall.mq_send] := by
  have h := mq_send_calls ch m.m_queue msg
  unfold sendMessage
  simp only [hi, hs, Bool.not_true, Bool.or_self, Bool.false_eq_true, if_false]
  split
  · split <;> simp_all
  · simp_all

theorem receiveMessage_calls (m : IPCManager) (ch : Channel)
    (hi : m.m_is_initialized = true) (hs : m.m_is_sender = false) :
    (m.receiveMessage ch).2.calls = ch.calls ++ [MQCall.mq_receive] := by
  have h := mq_receive_calls ch m.m_queue
  unfold receiveMessage
  simp only [hi, hs, Bool.not_true, Bool.or_self, Bool.false_eq_true, if_false]
  split
  · split <;> simp_all
  · simp_all

theorem cleanup_uninitialized (m : IPCManager) (ch : Channel) :
    (m.cleanup ch).1.m_is_initialized = false := by
  unfold cleanup
  cases hi : m.m_is_initialized <;> simp [hi]

/-- C11: for every manager state, `sendMessage` calls the transport exactly
when the manager is initialized as sender, and otherwise returns
`QUEUE_SEND_ERROR` and leaves the channel untouched; `receiveMessage` calls
the transport exactly when the manager is initialized as receiver, and
otherwise returns nothing and leaves the channel untouched. So a sender
rejects receive, a receiver rejects send, and a never-initialized manager and
a manager after `cleanup` reject both. -/
theorem C11_role_and_init_guards (m : IPCManager) (ch : Channel) (msg : MQMessage) :
    ((m.sendMessage ch msg).2.calls ≠ ch.calls ↔
      (m.m_is_initialized = true ∧ m.m_is_sender = true)) ∧
    (¬ (m.m_is_initialized = true ∧ m.m_is_sender = true) →
      (m.sendMessage ch msg).1 ≠ ErrorCode.SUCCESS ∧ (m.sendMessage ch msg).2 = ch) ∧
    ((m.receiveMessage ch).2.calls ≠ ch.calls ↔
      (m.m_is_initialized = true ∧ m.m_is_sender = false)) ∧
    (¬ (m.m_is_initialized = true ∧ m.m_is_sender = false) →
      m.receiveMessage ch = (none, ch)) ∧
    (m.m_is_initialized = true → m.m_is_sender = true → m.receiveMessage ch = (none, ch)) ∧
    (m.m_is_initialized = true → m.m_is_sender = false →
      m.sendMessage ch msg = (ErrorCode.QUEUE_SEND_ERROR, ch)) ∧
    IPCManager.new.sendMessage ch msg = (ErrorCode.QUEUE_SEND_ERROR, ch) ∧
    IPCManager.new.receiveMessage ch = (none, ch) ∧
    (m.cleanup ch).1.sendMessage (m.cleanup ch).2 msg
      = (ErrorCode.QUEUE_SEND_ERROR, (m.cleanup ch).2) ∧
    (m.cleanup ch).1.receiveMessage (m.cleanup ch).2 = (none, (m.cleanup ch).2) := by
  have hc := cleanup_uninitialized m ch
  refine ⟨⟨fun h => ?_, fun h => ?_⟩, fun h => ?_, ⟨fun h => ?_, fun h => ?_⟩, fun h => ?_,
    fun hi hs => ?_, fun hi hs => ?_, ?_, ?_, ?_, ?_⟩
  · by_contra hn
    exact h (by rw [sendMessage_rejected m ch msg hn])
  · rw [sendMessage_calls m ch msg h.1 h.2]; simp
  · rw [sendMessage_rejected m ch msg h]; exact ⟨by simp, rfl⟩
  · by_contra hn
    exact h (by rw [receiveMessage_rejected m ch hn])
  · rw [receiveMessage_calls m ch h.1 h.2]; simp
  · exact receiveMessage_rejected m ch h
  · exact receiveMessage_rejected m ch (by simp [hs])
  · exact sendMessage_rejected m ch msg (by simp [hs])
  · exact sendMessage_rejected _ ch msg (by simp [IPCManager.new])
  · exact receiveMessage_rejected _ ch (by simp [IPCManager.new])
  · exact sendMessage_rejected _ _ msg (by simp [hc])
  · exact receiveMessage_rejected _ _ (by simp [hc])

theorem send_accepts (m : IPCManager) (ch : Channel) (msg : MQMessage)
    (hi : m.m_is_initialized = true) (hs : m.m_is_sender = true)
    (hq : m.m_queue = mqd_t.wronly) (hroom : ch.slots.length < ch.maxmsg) :
    m.sendMessage ch msg
      = (ErrorCode.SUCCESS,
         { ch with slots := ch.slots ++ [msg], calls := ch.calls ++ [MQCall.mq_send] }) := by
  simp [sendMessage, Channel.mq_send, hi, hs, hq, hroom]

theorem send_full (m : IPCManager) (ch : Channel) (msg : MQMessage)
    (hi : m.m_is_initialized = true) (hs : m.m_is_sender = true)
    (hq : m.m_queue = mqd_t.wronly) (hfull : ch.maxmsg ≤ ch.slots.length) :
    m.sendMessage ch msg
      = (ErrorCode.BUFFER_FULL, { ch with calls := ch.calls ++ [MQCall.mq_send] }) := by
  simp [sendMessage, Channel.mq_send, hi, hs, hq, Nat.not_lt.2 hfull]

theorem sendAll_accepts (m : IPCManager) (msgs : List MQMessage) (ch : Channel)
    (hi : m.m_is_initialized = true) (hs : m.m_is_sender = true)
    (hq : m.m_queue = mqd_t.wronly) (hroom : ch.slots.length + msgs.length ≤ ch.maxmsg) :
    (m.sendAll ch msgs).1 = List.replicate msgs.length ErrorCode.SUCCESS ∧
    (m.sendAll ch msgs).2.slots = ch.slots ++ msgs ∧
    (m.sendAll ch msgs).2.maxmsg = ch.maxmsg ∧
    (m.sendAll ch msgs).2.created = ch.created := by
  induction msgs generalizing ch with
  | nil => simp [sendAll]
  | cons msg msgs ih =>
    have hlen : (msg :: msgs).length = msgs.length + 1 := rfl
    rw [hlen] at hroom
    have e := send_accepts m ch msg hi hs hq (by omega)
    obtain ⟨i1, i2, i3, i4⟩ := ih (m.sendMessage ch msg).2 (by
      rw [e]; simp only [List.length_append, List.length_singleton]; omega)
    simp only [sendAll]
    rw [i1, i2, i3, i4, e]
    simp [List.replicate_succ]

theorem receive_some (m : IPCManager) (ch : Channel) (msg : MQMessage) (rest : List MQMessage)
    (hi : m.m_is_initialized = true) (hs : m.m_is_sender = false)
    (hq : m.m_queue = mqd_t.rdonly) (hslots : ch.slots = msg :: rest) :
    m.receiveMessage ch
      = (some msg, { ch with slots := rest, calls := ch.calls ++ [MQCall.mq_receive] }) := by
  simp [receiveMessage, Channel.mq_receive, hi, hs, hq, hslots]

theorem receive_none (m : IPCManager) (ch : Channel)
    (hi : m.m_is_initialized = true) (hs : m.m_is_sender = false)
    (hq : m.m_queue = mqd_t.rdonly) (hslots : ch.slots = []) :
    m.receiveMessage ch = (none, { ch with calls := ch.calls ++ [MQCall.mq_receive] }) := by
  simp [receiveMessage, Channel.mq_receive, hi, hs, hq, hslots]

theorem receiveN_all (m : IPCManager) (msgs : List MQMessage) (ch : Channel)
    (hi : m.m_is_initialized = true) (hs : m.m_is_sender = false)
    (hq : m.m_queue = mqd_t.rdonly) (hslots : ch.slots = msgs) :
    (m.receiveN ch msgs.length).1 = msgs.map some ∧
    (m.receiveN ch msgs.length).2.slots = [] := by
  induction msgs generalizing ch with
  | nil => exact ⟨rfl, hslots⟩
  | cons msg msgs ih =>
    have e := receive_some m ch msg msgs hi hs hq hslots
    obtain ⟨i1, i2⟩ := ih (m.receiveMessage ch).2 (by rw [e])
    simp only [List.length_cons, receiveN]
    rw [i1, i2, e]
    simp

theorem init_sender (ch : Channel)
    (hch : ch.created = false ∨ (ch.maxmsg = MAX_MESSAGES ∧ ch.slots = [])) :
    (IPCManager.new.init ch true).1 = ErrorCode.SUCCESS ∧
    (IPCManager.new.init ch true).2.1
      = { m_queue := mqd_t.wronly, m_is_initialized := true, m_is_sender := true } ∧
    (IPCManager.new.init ch true).2.2.created = true ∧
    (IPCManager.new.init ch true).2.2.maxmsg = MAX_MESSAGES ∧
    (IPCManager.new.init ch true).2.2.slots = [] := by
  cases hc : ch.created
  · simp [init, Channel.mq_open, hc]
  · rcases hch with h | ⟨h1, h2⟩
    · rw [hc] at h; exact absurd h (by simp)
    · simp [init, Channel.mq_open, hc, h1, h2]

theorem init_receiver (ch : Channel) (hc : ch.created = true) :
    (IPCManager.new.init ch false).1 = ErrorCode.SUCCESS ∧
    (IPCManager.new.init ch false).2.1
      = { m_queue := mqd_t.rdonly, m_is_initialized := true, m_is_sender := false } ∧
    (IPCManager.new.init ch false).2.2.slots = ch.slots := by
  simp [init, Channel.mq_open, hc]

/-- C12: on a channel that is fresh, or exists idle with `MAX_MESSAGES = 10`
slots, a newly initialized sender that sends 11 messages with no receive in
between gets `SUCCESS` for the first 10 and `BUFFER_FULL` (not
`QUEUE_SEND_ERROR`) for the 11th, which enqueues nothing; a receiver
initialized afterwards then receives exactly the first 10 messages in the order
sent, and nothing on the next poll. -/
theorem C12_backpressure (ch : Channel) (msgs : List MQMessage) (extra : MQMessage)
    (hch : ch.created = false ∨ (ch.maxmsg = MAX_MESSAGES ∧ ch.slots = []))
    (hlen : msgs.length = MAX_MESSAGES) :
    (backpressure ch msgs extra).senderInit = ErrorCode.SUCCESS ∧
    (backpressure ch msgs extra).sends = List.replicate MAX_MESSAGES ErrorCode.SUCCESS ∧
    (backpressure ch msgs extra).lastSend = ErrorCode.BUFFER_FULL ∧
    (backpressure ch msgs extra).lastSend ≠ ErrorCode.QUEUE_SEND_ERROR ∧
    (backpressure ch msgs extra).queuedBeforeLast = msgs ∧
    (backpressure ch msgs extra).queuedAfterLast = msgs ∧
    (backpressure ch msgs extra).receiverInit = ErrorCode.SUCCESS ∧
    (backpressure ch msgs extra).received = msgs.map some ∧
    (backpressure ch msgs extra).onceMore = none := by
  obtain ⟨s1, s2, s3, s4, s5⟩ := init_sender ch hch
  have hi : (IPCManager.new.init ch true).2.1.m_is_initialized = true := by rw [s2]
  have hs : (IPCManager.new.init ch true).2.1.m_is_sender = true := by rw [s2]
  have hq : (IPCManager.new.init ch true).2.1.m_queue = mqd_t.wronly := by rw [s2]
  obtain ⟨a1, a2, a3, a4⟩ := sendAll_accepts (IPCManager.new.init ch true).2.1 msgs
    (IPCManager.new.init ch true).2.2 hi hs hq (by rw [s5, s4, hlen]; simp)
  rw [s5, List.nil_append] at a2
  rw [s4] at a3
  rw [s3] at a4
  have l := send_full (IPCManager.new.init ch true).2.1
    ((IPCManager.new.init ch true).2.1.sendAll (IPCManager.new.init ch true).2.2 msgs).2
    extra hi hs hq (by rw [a2, a3, hlen])
  have lc : ((IPCManager.new.init ch true).2.1.sendMessage
      ((IPCManager.new.init ch true).2.1.sendAll (IPCManager.new.init ch true).2.2 msgs).2
      extra).2.created = true := by rw [l]; exact a4
  have ls : ((IPCManager.new.init ch true).2.1.sendMessage
      ((IPCManager.new.init ch true).2.1.sendAll (IPCManager.new.init ch true).2.2 msgs).2
      extra).2.slots = msgs := by rw [l]; exact a2
  obtain ⟨r1, r2, r3⟩ := init_receiver _ lc
  rw [ls] at r3
  have ri := congrArg IPCManager.m_is_initialized r2
  have rs := congrArg IPCManager.m_is_sender r2
  have rq := congrArg IPCManager.m_queue r2
  obtain ⟨p1, p2⟩ := receiveN_all _ msgs _ ri rs rq r3
  have o := receive_none _ _ ri rs rq p2
  refine ⟨s1, ?_, ?_, ?_, a2, ls, r1, p1, ?_⟩
  · rw [← hlen]; exact a1
  · exact congrArg Prod.fst l
  · have e : (backpressure ch msgs extra).lastSend = ErrorCode.BUFFER_FULL :=
      congrArg Prod.fst l
    rw [e]; simp
  · exact congrArg Prod.fst o

/-- Witness for C12: a fresh channel and the messages with ids 0 to 9, then 10. -/
theorem C12_backpressure_witness :
    (({ created := false, maxmsg := 0, slots := [], calls := [] } : Channel).created = false ∧
      ((List.range 10).map sampleMessage).length = MAX_MESSAGES) ∧
    (((backpressure { created := false, maxmsg := 0, slots := [], calls := [] }
        ((List.range 10).map sampleMessage) (sampleMessage 10)).sends
          = List.replicate MAX_MESSAGES ErrorCode.SUCCESS) ∧
     ((backpressure { created := false, maxmsg := 0, slots := [], calls := [] }
        ((List.range 10).map sampleMessage) (sampleMessage 10)).lastSend
          = ErrorCode.BUFFER_FULL) ∧
     ((backpressure { created := false, maxmsg := 0, slots := [], calls := [] }
        ((List.range 10).map sampleMessage) (sampleMessage 10)).received.map
          (Option.map MQMessage.msg_id)
          = [some 0, some 1, some 2, some 3, some 4, some 5, some 6, some 7, some 8, some 9])) :=
  have h := C12_backpressure { created := false, maxmsg := 0, slots := [], calls := [] }
    ((List.range 10).map sampleMessage) (sampleMessage 10) (Or.inl rfl) (by decide)
  ⟨⟨rfl, by decide⟩, h.2.1, h.2.2.1, by rw [h.2.2.2.2.2.2.2.1]; rfl⟩

/-! ## The reservoir read, the shutdown order and the index bounds -/

/-- C13: `getLatestData` is documented to return the most recent reading; on
the reservoir of capacity `BUFFER_SIZE` holding two readings `a` (pushed first)
and `b` (pushed last) it returns `a`, the oldest, while the most recent
reading, as read by `getWindow(1)`, is `b`. -/
theorem C13_getLatestData_returns_oldest (a b : SensorData) :
    (((({ m_buffer := new BUFFER_SIZE } : SensorSimulator).simulationStep a).simulationStep
        b).getLatestData).1 = some a ∧
    ((({ m_buffer := new BUFFER_SIZE } : SensorSimulator).simulationStep a).simulationStep
        b).m_buffer.getWindow 1 = [b] := by
  have h1 : 1 ≤ BUFFER_SIZE := by decide
  have h2 : BUFFER_SIZE ≤ VECTOR_MAX_SIZE := by decide
  have w0 : WF BUFFER_SIZE (new BUFFER_SIZE : CircularBuffer SensorData) := WF_new h1 h2
  have w1 := WF_push w0 a
  have w2 := WF_push w1 b
  have l1 : ((new BUFFER_SIZE : CircularBuffer SensorData).push a).2.toList = [a] := by
    rw [toList_push w0 a, toList_new h1 h2]
    simp [Model.push, BUFFER_SIZE]
  have l2 : (((new BUFFER_SIZE : CircularBuffer SensorData).push a).2.push b).2.toList
      = [a, b] := by
    rw [toList_push w1 b, l1]
    simp [Model.push, BUFFER_SIZE]
  refine ⟨?_, ?_⟩
  · show ((((new BUFFER_SIZE : CircularBuffer SensorData).push a).2.push b).2.pop).1 = some a
    rw [(toList_pop w2).1, l2]
    rfl
  · show (((new BUFFER_SIZE : CircularBuffer SensorData).push a).2.push b).2.getWindow 1 = [b]
    rw [getWindow_eq w2, l2]
    rfl

/-- C14 as stated fails: on a clean exit of `main` it is not the case that
`SensorSimulator` is stopped first and `OutputHandler` last. -/
theorem C14_producer_first_fails :
    ¬ (main.stopOrder.head? = some Stage.SensorSimulator ∧
       main.stopOrder.getLast? = some Stage.OutputHandler) := by
  decide

/-- C14 amended: on a clean exit `main` stops the stages in the reverse of the
order it started them: the consumer-facing `OutputHandler` first, then
`DataProcessor`, and the producer-facing `SensorSimulator` last; each stage is
stopped exactly once. -/
theorem C14_stops_in_reverse_start_order :
    main.stopOrder = [Stage.OutputHandler, Stage.DataProcessor, Stage.SensorSimulator] ∧
    main.startOrder = [Stage.SensorSimulator, Stage.DataProcessor, Stage.OutputHandler] ∧
    main.stopOrder = main.startOrder.reverse ∧
    main.stopOrder.head? = some Stage.OutputHandler ∧
    main.stopOrder.getLast? = some Stage.SensorSimulator := by
  decide

theorem InBounds_new {α : Type} [Inhabited α] {C : Nat} (hC : 1 ≤ C) :
    InBounds C (new C : CircularBuffer α) :=
  { size_eq := rfl, buf_len := by simp [CircularBuffer.new], head_lt := hC, tail_lt := hC }

theorem InBounds_push {α : Type} [Inhabited α] {C : Nat} {b : CircularBuffer α}
    (h : InBounds C b) (hC : 1 ≤ C) (x : α) : InBounds C (b.push x).2 := by
  have hpos : 0 < C := hC
  have e := h.size_eq
  cases hf : b.m_full
  · refine { size_eq := ?_, buf_len := ?_, head_lt := ?_, tail_lt := ?_ }
    all_goals simp only [push, hf, e, Bool.false_eq_true, if_false]
    · simp [h.buf_len]
    · exact Nat.mod_lt _ hpos
    · exact h.tail_lt
  · refine { size_eq := ?_, buf_len := ?_, head_lt := ?_, tail_lt := ?_ }
    all_goals simp only [push, hf, e, if_true]
    · simp [h.buf_len]
    · exact Nat.mod_lt _ hpos
    · exact Nat.mod_lt _ hpos

theorem InBounds_pop {α : Type} [Inhabited α] {C : Nat} {b : CircularBuffer α}
    (h : InBounds C b) (hC : 1 ≤ C) : InBounds C (b.pop).2 := by
  have hpos : 0 < C := hC
  unfold pop
  split
  · exact h
  · exact { size_eq := h.size_eq, buf_len := h.buf_len, head_lt := h.head_lt,
            tail_lt := by
              show szAdd b.m_tail 1 % b.m_size < C
              rw [h.size_eq]
              exact Nat.mod_lt _ hpos }

theorem InBounds_run {α : Type} [Inhabited α] {C : Nat} (hC : 1 ≤ C) (ops : List (Op α))
    {b : CircularBuffer α} (h : InBounds C b) : InBounds C (b.run ops) := by
  induction ops generalizing b with
  | nil => exact h
  | cons op ops ih =>
    apply ih
    cases op with
    | push x => exact InBounds_push h hC x
    | pop => exact InBounds_pop h hC
    | getWindow k => exact h

theorem copyLoopSlots_lt {α : Type} [Inhabited α] {C : Nat} {b : CircularBuffer α}
    (h : InBounds C b) (hC : 1 ≤ C) (n : Nat) :
    ∀ cur, cur < C → ∀ i ∈ b.copyLoopSlots n cur, i < C := by
  induction n with
  | zero => intro cur _ i hi; simp [copyLoopSlots] at hi
  | succ n ih =>
    intro cur hcur i hi
    simp only [copyLoopSlots, List.mem_cons] at hi
    rcases hi with hi | hi
    · rw [hi]; exact hcur
    · exact ih _ (by rw [h.size_eq]; exact Nat.mod_lt _ hC) i hi

theorem copyLoop_eq_slots {α : Type} [Inhabited α] (b : CircularBuffer α) (n : Nat) :
    ∀ (cur : Nat) (acc : List α),
      b.copyLoop n cur acc
        = acc ++ (b.copyLoopSlots n cur).map (fun i => b.m_buffer.getD i default) := by
  induction n with
  | zero => intro cur acc; simp [copyLoop, copyLoopSlots]
  | succ n ih =>
    intro cur acc
    rw [copyLoop, ih, copyLoopSlots, List.map_cons, List.append_assoc, List.singleton_append]

theorem touched_lt {α : Type} [Inhabited α] {C : Nat} {b : CircularBuffer α}
    (h : InBounds C b) (hC : 1 ≤ C) (op : Op α) : ∀ i ∈ b.touched op, i < C := by
  intro i hi
  cases op with
  | push x =>
    simp only [touched, List.mem_singleton] at hi
    rw [hi]; exact h.head_lt
  | pop =>
    simp only [touched] at hi
    split at hi
    · simp at hi
    · rw [List.mem_singleton.1 hi]; exact h.tail_lt
  | getWindow k =>
    simp only [touched] at hi
    split at hi
    · simp at hi
    · exact copyLoopSlots_lt h hC _ _ (by rw [h.size_eq]; exact Nat.mod_lt _ hC) i hi

theorem getWindow_eq_touched {α : Type} [Inhabited α] (b : CircularBuffer α) (k : Nat) :
    b.getWindow k
      = (b.touched (Op.getWindow k)).map (fun i => b.m_buffer.getD i default) := by
  simp only [getWindow, touched]
  split
  · rfl
  · simp only [copyLoop_eq_slots, List.nil_append]

/-- C15: for every capacity `C ≥ 1` and every state reached from a fresh buffer
by pushes, pops and window reads, `m_head < C` and `m_tail < C`; every index at
which `push`, `pop` or `getWindow` (each iteration of its copy loop included)
reads or writes `m_buffer` is below `C`, the length of `m_buffer`; and the
divisor `m_size` of every modulo operation is `C`, hence not zero. -/
theorem C15_indices_in_bounds {α : Type} [Inhabited α] (C : Nat) (ops : List (Op α))
    (op : Op α) (hC : 1 ≤ C) :
    ((new C).run ops).m_head < C ∧ ((new C).run ops).m_tail < C ∧
    ((new C).run ops).m_size = C ∧ ((new C).run ops).m_size ≠ 0 ∧
    ((new C).run ops).m_buffer.length = C ∧
    (∀ i ∈ ((new C).run ops).touched op, i < C ∧ i < ((new C).run ops).m_buffer.length) ∧
    (∀ k, ((new C).run ops).getWindow k
      = (((new C).run ops).touched (Op.getWindow k)).map
          (fun i => ((new C).run ops).m_buffer.getD i default)) := by
  have h : InBounds C ((new C : CircularBuffer α).run ops) := InBounds_run hC ops (InBounds_new hC)
  refine ⟨h.head_lt, h.tail_lt, h.size_eq, ?_, h.buf_len, fun i hi => ?_,
    fun k => getWindow_eq_touched _ k⟩
  · rw [h.size_eq]; omega
  · have hlt := touched_lt h hC op i hi
    exact ⟨hlt, by rw [h.buf_len]; exact hlt⟩

/-- Witness for C15: capacity 2 after three pushes and a pop; the window read
of size 2 touches slot 0 only. -/
theorem C15_indices_in_bounds_witness :
    (1 ≤ 2) ∧
    (((new 2).run [Op.push 1, Op.push 2, Op.push 3, Op.pop]).m_head < 2 ∧
     ((new 2).run [Op.push 1, Op.push 2, Op.push 3, Op.pop]).m_tail < 2 ∧
     ((new 2).run [Op.push 1, Op.push 2, Op.push 3, Op.pop]).touched (Op.getWindow 2) = [0]) :=
  ⟨by decide,
   (C15_indices_in_bounds 2 [Op.push 1, Op.push 2, Op.push 3, Op.pop] (Op.getWindow 2)
      (by decide)).1,
   (C15_indices_in_bounds 2 [Op.push 1, Op.push 2, Op.push 3, Op.pop] (Op.getWindow 2)
      (by decide)).2.1,
   by decide⟩

end sensor
